import Mathlib

/-!
Verification of the request-sanitization and injection-detection pipeline of
the `autmation-tasks` repository (mock API server for an Instagram-automation
workflow), together with its MCP tool dispatch layer.

Python strings are modelled as `List Char` (ASCII model: `str.lower` is
modelled on the ASCII range, which covers every character occurring in the
pattern sets and in the security-relevant inputs).  Python regex searches of
the concrete patterns appearing in `SecurityValidator.DANGEROUS_PATTERNS` and
in the `SecurityHardening` pattern lists are modelled by hand-rolled decidable
matchers, one per pattern, each reproducing `re.search(pattern, text,
re.IGNORECASE)` for its pattern.
-/

abbrev PyStr := List Char

/-- Convert a Lean string literal to the `List Char` model of Python strings. -/
def toL (s : String) : PyStr := s.toList

/-- The apostrophe character (ASCII 39). -/
def quoteCh : Char := Char.ofNat 39

/-- The null character (ASCII 0), removed by the sanitizers. -/
def nullCh : Char := Char.ofNat 0

/-- The backtick character (ASCII 96), a member of the command-injection class. -/
def backtickCh : Char := Char.ofNat 96

/-- The backslash character (ASCII 92), a member of the command-injection class. -/
def backslashCh : Char := Char.ofNat 92

/-- The left curly bracket (ASCII 123), a member of the command-injection class. -/
def lcurlyCh : Char := Char.ofNat 123

/-- The right curly bracket (ASCII 125), a member of the command-injection class. -/
def rcurlyCh : Char := Char.ofNat 125

/-- ASCII model of Python `str.lower` on a single character. -/
def pyToLower (c : Char) : Char :=
  match c with
  | 'A' => 'a' | 'B' => 'b' | 'C' => 'c' | 'D' => 'd' | 'E' => 'e' | 'F' => 'f'
  | 'G' => 'g' | 'H' => 'h' | 'I' => 'i' | 'J' => 'j' | 'K' => 'k' | 'L' => 'l'
  | 'M' => 'm' | 'N' => 'n' | 'O' => 'o' | 'P' => 'p' | 'Q' => 'q' | 'R' => 'r'
  | 'S' => 's' | 'T' => 't' | 'U' => 'u' | 'V' => 'v' | 'W' => 'w' | 'X' => 'x'
  | 'Y' => 'y' | 'Z' => 'z'
  | other => other

/-- Model of Python `str.lower` on a whole string. -/
def pyLower (s : PyStr) : PyStr := s.map pyToLower

/-- Case-insensitive character comparison, as performed by `re.IGNORECASE`. -/
def ciEq (a b : Char) : Bool := pyToLower a = pyToLower b

/-- Python regex `\w` (word character) on the ASCII range. -/
def isWordChar (c : Char) : Bool := c.isAlphanum || c = '_'

/-- Python regex `\s` (whitespace) on the ASCII range. -/
def pyIsSpace (c : Char) : Bool :=
  c = ' ' || c = '\t' || c = '\n' || c = '\x0d' || c = Char.ofNat 11 || c = Char.ofNat 12

/-- Does `pat` match (case-insensitively) at the very start of `s`? -/
def subAt : PyStr → PyStr → Bool
  | [], _ => true
  | _ :: _, [] => false
  | p :: ps, c :: cs => ciEq p c && subAt ps cs

/-- Match `pat` case-insensitively at the start of `s`, returning the rest. -/
def dropMatchCI : PyStr → PyStr → Option PyStr
  | [], s => some s
  | _ :: _, [] => none
  | p :: ps, c :: cs => if ciEq p c then dropMatchCI ps cs else none

/-- `re.search` position scan: does `p` hold at some suffix of `s`
(including the empty suffix at the end)? -/
def anyPos (p : PyStr → Bool) : PyStr → Bool
  | [] => p []
  | c :: rest => p (c :: rest) || anyPos p rest

/-- Case-insensitive substring search (`re.search` of a literal pattern under
`re.IGNORECASE`). -/
def containsCI (pat : PyStr) (s : PyStr) : Bool := anyPos (subAt pat) s

/-- `\b` to the left of the current position, given the previous character. -/
def boundaryB : Option Char → Bool
  | none => true
  | some c => !isWordChar c

/-- Does the word `w` match at the start of `s` with a `\b` on its right? -/
def wordHitAt (w : PyStr) (s : PyStr) : Bool :=
  match dropMatchCI w s with
  | none => false
  | some [] => true
  | some (c :: _) => !isWordChar c

/-- Scan for `\bw\b` keeping track of the previous character. -/
def hasWordAux (w : PyStr) (prv : Option Char) : PyStr → Bool
  | [] => false
  | c :: rest => (boundaryB prv && wordHitAt w (c :: rest)) || hasWordAux w (some c) rest

/-- `re.search(r"\b(w1|w2|...)\b", s, re.IGNORECASE)` for a word alternation. -/
def anyWordHit (ws : List PyStr) (s : PyStr) : Bool :=
  ws.any (fun w => hasWordAux w none s)

/-- Tail matcher for `\s+\d+\s*=\s*\d+` (maximal munch is exact here because
the character classes `\s`, `\d`, `=` are pairwise disjoint). -/
def numCmpTail : PyStr → Bool
  | [] => false
  | c :: rest =>
    pyIsSpace c &&
      (match rest.dropWhile pyIsSpace with
       | [] => false
       | d :: ds =>
         d.isDigit &&
           (match ((d :: ds).dropWhile Char.isDigit).dropWhile pyIsSpace with
            | '=' :: r4 =>
              (match r4.dropWhile pyIsSpace with
               | d2 :: _ => d2.isDigit
               | [] => false)
            | _ => false))

/-- Matcher for `.*['\"]`: a quote is reachable without crossing a newline. -/
def dotStarQuote : PyStr → Bool
  | [] => false
  | c :: rest => (c = quoteCh || c = '"') || (c != '\n' && dotStarQuote rest)

/-- Tail matcher for `\s+['\"].*['\"]` (the `.` of Python `re` does not match
a newline). -/
def quoteCmpTail : PyStr → Bool
  | [] => false
  | c :: rest =>
    pyIsSpace c &&
      (match rest.dropWhile pyIsSpace with
       | [] => false
       | q :: r2 => (q = quoteCh || q = '"') && dotStarQuote r2)

/-- Scan for `\b(OR|AND)` followed by a given tail matcher. -/
def orAndThenAux (tail : PyStr → Bool) (prv : Option Char) : PyStr → Bool
  | [] => false
  | c :: rest =>
    (boundaryB prv &&
      ((match dropMatchCI (toL "or") (c :: rest) with
        | some r => tail r
        | none => false) ||
       (match dropMatchCI (toL "and") (c :: rest) with
        | some r => tail r
        | none => false))) ||
    orAndThenAux tail (some c) rest

/-- `</script>` reachable from here without crossing a newline (`.*?` part). -/
def closeScriptReach : PyStr → Bool
  | [] => false
  | c :: rest => subAt (toL "</script>") (c :: rest) || (c != '\n' && closeScriptReach rest)

/-- Matcher at a fixed position for `<script[^>]*>.*?</script>`.  The `[^>]*>`
part must consume exactly up to the first `>` (the class excludes `>`). -/
def scriptTagAt (s : PyStr) : Bool :=
  match dropMatchCI (toL "<script") s with
  | none => false
  | some r1 =>
    match r1.dropWhile (fun c => c != '>') with
    | [] => false
    | _ :: r3 => closeScriptReach r3

/-- Matcher at a fixed position for `<tag[^>]*>`: the open tag is followed by
a `>` somewhere to its right. -/
def openTagAt (tag : PyStr) (s : PyStr) : Bool :=
  match dropMatchCI tag s with
  | none => false
  | some r => r.any (fun c => c = '>')

/-- Matcher at a fixed position for `name\s*=`. -/
def attrEqAt (name : PyStr) (s : PyStr) : Bool :=
  match dropMatchCI name s with
  | none => false
  | some r =>
    match r.dropWhile pyIsSpace with
    | '=' :: _ => true
    | _ => false

/-! ### The individual regex patterns, named after their role in the sources -/

/-- `(\b(SELECT|INSERT|UPDATE|DELETE|DROP|CREATE|ALTER|EXEC|UNION|SCRIPT)\b)` -/
def sqlKeywordPat (s : PyStr) : Bool :=
  anyWordHit [toL "select", toL "insert", toL "update", toL "delete", toL "drop",
              toL "create", toL "alter", toL "exec", toL "union", toL "script"] s

/-- `(--|#|/\*|\*/)` -/
def sqlCommentPat (s : PyStr) : Bool :=
  containsCI (toL "--") s || containsCI (toL "#") s ||
  containsCI (toL "/*") s || containsCI (toL "*/") s

/-- `(\b(OR|AND)\s+\d+\s*=\s*\d+)` -/
def orAndNumPat (s : PyStr) : Bool := orAndThenAux numCmpTail none s

/-- `(\b(OR|AND)\s+['\"].*['\"])` -/
def orAndQuotePat (s : PyStr) : Bool := orAndThenAux quoteCmpTail none s

/-- `(;|\|\||&&)` -/
def semiOrAmpPat (s : PyStr) : Bool :=
  containsCI (toL ";") s || containsCI (toL "||") s || containsCI (toL "&&") s

/-- `<script[^>]*>.*?</script>` -/
def scriptTagPat (s : PyStr) : Bool := anyPos scriptTagAt s

/-- `javascript:` -/
def jsProtoPat (s : PyStr) : Bool := containsCI (toL "javascript:") s

/-- `vbscript:` -/
def vbProtoPat (s : PyStr) : Bool := containsCI (toL "vbscript:") s

/-- `onload\s*=` -/
def onloadPat (s : PyStr) : Bool := anyPos (attrEqAt (toL "onload")) s

/-- `onerror\s*=` -/
def onerrorPat (s : PyStr) : Bool := anyPos (attrEqAt (toL "onerror")) s

/-- `onclick\s*=` -/
def onclickPat (s : PyStr) : Bool := anyPos (attrEqAt (toL "onclick")) s

/-- `onmouseover\s*=` -/
def onmouseoverPat (s : PyStr) : Bool := anyPos (attrEqAt (toL "onmouseover")) s

/-- `<iframe[^>]*>` -/
def iframePat (s : PyStr) : Bool := anyPos (openTagAt (toL "<iframe")) s

/-- `<object[^>]*>` -/
def objectPat (s : PyStr) : Bool := anyPos (openTagAt (toL "<object")) s

/-- `<embed[^>]*>` -/
def embedPat (s : PyStr) : Bool := anyPos (openTagAt (toL "<embed")) s

/-- The character class of `[;&|`$(){}[\]\\]` (written with explicit codes for
the backtick, braces and backslash). -/
def cmdClassChars : List Char :=
  [';', '&', '|', backtickCh, '$', '(', ')', lcurlyCh, rcurlyCh, '[', ']', backslashCh]

/-- `[;&|`$(){}[\]\\]` -/
def cmdClassPat (s : PyStr) : Bool := s.any (fun c => cmdClassChars.contains c)

/-- `\b(cat|ls|pwd|whoami|id|uname|ps|netstat|wget|curl|nc|telnet|ssh)\b`
(the word list of `SecurityValidator.DANGEROUS_PATTERNS`). -/
def cmdWordsMockPat (s : PyStr) : Bool :=
  anyWordHit [toL "cat", toL "ls", toL "pwd", toL "whoami", toL "id", toL "uname",
              toL "ps", toL "netstat", toL "wget", toL "curl", toL "nc",
              toL "telnet", toL "ssh"] s

/-- `\b(cat|ls|pwd|whoami|id|uname|ps|netstat|ifconfig|ping|wget|curl|nc|telnet|ssh|ftp)\b`
(the word list of `SecurityHardening.COMMAND_INJECTION_PATTERNS`). -/
def cmdWordsHardPat (s : PyStr) : Bool :=
  anyWordHit [toL "cat", toL "ls", toL "pwd", toL "whoami", toL "id", toL "uname",
              toL "ps", toL "netstat", toL "ifconfig", toL "ping", toL "wget",
              toL "curl", toL "nc", toL "telnet", toL "ssh", toL "ftp"] s

/-- `(\.\.\/|\.\.\\)` -/
def dotDotPat (s : PyStr) : Bool :=
  containsCI (toL "../") s || containsCI ('.' :: '.' :: [backslashCh]) s

/-- `(/etc/passwd|/etc/shadow|/proc/|/sys/)` -/
def sysPathsPat (s : PyStr) : Bool :=
  containsCI (toL "/etc/passwd") s || containsCI (toL "/etc/shadow") s ||
  containsCI (toL "/proc/") s || containsCI (toL "/sys/") s

/-- `(%2e%2e%2f|%2e%2e%5c)` -/
def pctDotPat (s : PyStr) : Bool :=
  containsCI (toL "%2e%2e%2f") s || containsCI (toL "%2e%2e%5c") s

/-- `(\.\.%2f|\.\.%5c)` -/
def dotPctPat (s : PyStr) : Bool :=
  containsCI (toL "..%2f") s || containsCI (toL "..%5c") s

/-- `(%252e%252e%252f|%252e%252e%255c)` -/
def dblPctPat (s : PyStr) : Bool :=
  containsCI (toL "%252e%252e%252f") s || containsCI (toL "%252e%252e%255c") s

/-! ### The JSON value model (payloads parsed by `request.get_json()`) -/

mutual
inductive JsonVal where
  | str (s : PyStr)
  | num (n : Int)
  | boolean (b : Bool)
  | null
  | dict (kvs : JsonEntries)
  | arr (xs : JsonList)
  deriving DecidableEq
inductive JsonList where
  | nil
  | cons (hd : JsonVal) (tl : JsonList)
  deriving DecidableEq
inductive JsonEntries where
  | nil
  | cons (key : PyStr) (val : JsonVal) (tl : JsonEntries)
  deriving DecidableEq
end

/-- Python truthiness (`if data:`) of a JSON value. -/
def pyTruthy : JsonVal → Bool
  | .str s => !s.isEmpty
  | .num n => n != 0
  | .boolean b => b
  | .null => false
  | .dict .nil => false
  | .dict (.cons _ _ _) => true
  | .arr .nil => false
  | .arr (.cons _ _) => true

mutual
/-- All strings occurring anywhere in a JSON value: the value itself, dict
keys, dict values and list elements, at any nesting depth. -/
def JsonVal.allStrings : JsonVal → List PyStr
  | .str s => [s]
  | .num _ => []
  | .boolean _ => []
  | .null => []
  | .dict e => JsonEntries.allStrings e
  | .arr l => JsonList.allStrings l
def JsonList.allStrings : JsonList → List PyStr
  | .nil => []
  | .cons v t => JsonVal.allStrings v ++ JsonList.allStrings t
def JsonEntries.allStrings : JsonEntries → List PyStr
  | .nil => []
  | .cons k v t => k :: (JsonVal.allStrings v ++ JsonEntries.allStrings t)
end

mutual
/-- The strings occurring at non-key positions of a JSON value (the positions
the sanitizers rewrite; dict keys are not among them). -/
def JsonVal.valueStrings : JsonVal → List PyStr
  | .str s => [s]
  | .num _ => []
  | .boolean _ => []
  | .null => []
  | .dict e => JsonEntries.valueStrings e
  | .arr l => JsonList.valueStrings l
def JsonList.valueStrings : JsonList → List PyStr
  | .nil => []
  | .cons v t => JsonVal.valueStrings v ++ JsonList.valueStrings t
def JsonEntries.valueStrings : JsonEntries → List PyStr
  | .nil => []
  | .cons _ v t => JsonVal.valueStrings v ++ JsonEntries.valueStrings t
end

/-! ### `mock_api_server.py`: class `SecurityValidator` -/

namespace SecurityValidator

/-- The 13 entries of `SecurityValidator.DANGEROUS_PATTERNS`, in source order
(SQL injection, XSS, command injection, path traversal), each modelled as its
`re.search(·, ·, re.IGNORECASE)` matcher. -/
def DANGEROUS_PATTERNS : List (PyStr → Bool) :=
  [sqlKeywordPat, sqlCommentPat, orAndNumPat,
   scriptTagPat, jsProtoPat, vbProtoPat, onloadPat, onerrorPat, onclickPat,
   cmdClassPat, cmdWordsMockPat,
   dotDotPat, pctDotPat]

/-- String case of `SecurityValidator.validate_input`: the string is lowered
and each dangerous pattern searched in it. -/
def stringDangerous (s : PyStr) : Bool :=
  DANGEROUS_PATTERNS.any (fun m => m (pyLower s))

/-- `html.escape` of a single character (Python's sequence of `str.replace`
calls, `&` first, is equivalent to this single character-wise expansion). -/
def escapeChar (c : Char) : PyStr :=
  if c = '&' then toL "&amp;"
  else if c = '<' then toL "&lt;"
  else if c = '>' then toL "&gt;"
  else if c = '"' then toL "&quot;"
  else if c = quoteCh then toL "&#x27;"
  else [c]

/-- `html.escape` on a whole string. -/
def htmlEscape : PyStr → PyStr
  | [] => []
  | c :: rest => escapeChar c ++ htmlEscape rest

/-- String case of `SecurityValidator.sanitize_input`: HTML-escape, remove
null bytes, truncate to 10000 characters. -/
def sanitizeStr (s : PyStr) : PyStr :=
  let e := htmlEscape s
  let e2 := e.filter (fun c => c != nullCh)
  if e2.length > 10000 then e2.take 10000 else e2

mutual
/-- `SecurityValidator.sanitize_input` (mock_api_server.py lines 58-73):
strings are escaped/stripped/truncated; dict values and list elements are
sanitized recursively (dict keys are left as they are); every other value is
returned unchanged. -/
def sanitize_input : JsonVal → JsonVal
  | .str s => .str (sanitizeStr s)
  | .num n => .num n
  | .boolean b => .boolean b
  | .null => .null
  | .dict e => .dict (sanitizeEntries e)
  | .arr l => .arr (sanitizeList l)
def sanitizeList : JsonList → JsonList
  | .nil => .nil
  | .cons v t => .cons (sanitize_input v) (sanitizeList t)
def sanitizeEntries : JsonEntries → JsonEntries
  | .nil => .nil
  | .cons k v t => .cons k (sanitize_input v) (sanitizeEntries t)
end

mutual
/-- `SecurityValidator.validate_input` (mock_api_server.py lines 75-92):
a string fails when some dangerous pattern is found in its lowering; dicts
check every key and value, lists every element; all other values pass. -/
def validate_input : JsonVal → Bool
  | .str s => !stringDangerous s
  | .num _ => true
  | .boolean _ => true
  | .null => true
  | .dict e => validateEntries e
  | .arr l => validateList l
def validateList : JsonList → Bool
  | .nil => true
  | .cons v t => validate_input v && validateList t
def validateEntries : JsonEntries → Bool
  | .nil => true
  | .cons k v t => (!stringDangerous k && validate_input v) && validateEntries t
end

end SecurityValidator

/-! ### `security-hardening.py`: class `SecurityHardening` -/

namespace SecurityHardening

/-- `SecurityHardening.SQL_INJECTION_PATTERNS` (5 patterns, source order). -/
def SQL_INJECTION_PATTERNS : List (PyStr → Bool) :=
  [sqlKeywordPat, sqlCommentPat, orAndNumPat, orAndQuotePat, semiOrAmpPat]

/-- `SecurityHardening.XSS_PATTERNS` (10 patterns, source order). -/
def XSS_PATTERNS : List (PyStr → Bool) :=
  [scriptTagPat, jsProtoPat, vbProtoPat, onloadPat, onerrorPat, onclickPat,
   onmouseoverPat, iframePat, objectPat, embedPat]

/-- `SecurityHardening.COMMAND_INJECTION_PATTERNS` (4 patterns, source order). -/
def COMMAND_INJECTION_PATTERNS : List (PyStr → Bool) :=
  [cmdClassPat, cmdWordsHardPat, dotDotPat, sysPathsPat]

/-- `SecurityHardening.PATH_TRAVERSAL_PATTERNS` (4 patterns, source order). -/
def PATH_TRAVERSAL_PATTERNS : List (PyStr → Bool) :=
  [dotDotPat, pctDotPat, dotPctPat, dblPctPat]

/-- `SecurityHardening.detect_sql_injection`: lowers the text, then searches
each SQL pattern with `re.IGNORECASE`. -/
def detect_sql_injection (text : PyStr) : Bool :=
  SQL_INJECTION_PATTERNS.any (fun m => m (pyLower text))

/-- `SecurityHardening.detect_xss`: lowers the text, then searches each XSS
pattern with `re.IGNORECASE`. -/
def detect_xss (text : PyStr) : Bool :=
  XSS_PATTERNS.any (fun m => m (pyLower text))

/-- `SecurityHardening.detect_command_injection`: searches each command
pattern in the original text with `re.IGNORECASE`. -/
def detect_command_injection (text : PyStr) : Bool :=
  COMMAND_INJECTION_PATTERNS.any (fun m => m text)

/-- `SecurityHardening.detect_path_traversal`: searches each path pattern in
the original text with `re.IGNORECASE`. -/
def detect_path_traversal (text : PyStr) : Bool :=
  PATH_TRAVERSAL_PATTERNS.any (fun m => m text)

/-- String case of `SecurityHardening.validate_input`: any of the four
detectors firing rejects the string. -/
def stringDangerous (s : PyStr) : Bool :=
  detect_sql_injection s || detect_xss s ||
  detect_command_injection s || detect_path_traversal s

/-- `SecurityHardening._sanitize_string`, parameterized by the behaviour of
`bleach.clean` (an external library, hence a parameter): HTML escape, bleach,
null-byte removal, truncation to 10000 characters, in source order. -/
def sanitizeStr (bleachClean : PyStr → PyStr) (s : PyStr) : PyStr :=
  let t := bleachClean (SecurityValidator.htmlEscape s)
  let t2 := t.filter (fun c => c != nullCh)
  if t2.length > 10000 then t2.take 10000 else t2

mutual
/-- `SecurityHardening.sanitize_input` (security-hardening.py lines 85-95),
parameterized by the behaviour of `bleach.clean`. -/
def sanitize_input (bf : PyStr → PyStr) : JsonVal → JsonVal
  | .str s => .str (sanitizeStr bf s)
  | .num n => .num n
  | .boolean b => .boolean b
  | .null => .null
  | .dict e => .dict (sanitizeEntries bf e)
  | .arr l => .arr (sanitizeList bf l)
def sanitizeList (bf : PyStr → PyStr) : JsonList → JsonList
  | .nil => .nil
  | .cons v t => .cons (sanitize_input bf v) (sanitizeList bf t)
def sanitizeEntries (bf : PyStr → PyStr) : JsonEntries → JsonEntries
  | .nil => .nil
  | .cons k v t => .cons k (sanitize_input bf v) (sanitizeEntries bf t)
end

mutual
/-- `SecurityHardening.validate_input` (security-hardening.py lines 162-181). -/
def validate_input : JsonVal → Bool
  | .str s => !stringDangerous s
  | .num _ => true
  | .boolean _ => true
  | .null => true
  | .dict e => validateEntries e
  | .arr l => validateList l
def validateList : JsonList → Bool
  | .nil => true
  | .cons v t => validate_input v && validateList t
def validateEntries : JsonEntries → Bool
  | .nil => true
  | .cons k v t => (!stringDangerous k && validate_input v) && validateEntries t
end

/-- `SecurityHardening.secure_headers` (security-hardening.py lines 205-219),
in the source's dict-literal order. -/
def secure_headers : List (PyStr × PyStr) :=
  [(toL "X-Content-Type-Options", toL "nosniff"),
   (toL "X-Frame-Options", toL "DENY"),
   (toL "X-XSS-Protection", toL "1; mode=block"),
   (toL "Strict-Transport-Security", toL "max-age=31536000; includeSubDomains"),
   (toL "Content-Security-Policy",
    toL "default-src " ++ [quoteCh] ++ toL "self" ++ [quoteCh] ++
    toL "; script-src " ++ [quoteCh] ++ toL "self" ++ [quoteCh] ++
    toL "; style-src " ++ [quoteCh] ++ toL "self" ++ [quoteCh] ++ toL " " ++
    [quoteCh] ++ toL "unsafe-inline" ++ [quoteCh] ++
    toL "; img-src " ++ [quoteCh] ++ toL "self" ++ [quoteCh] ++ toL " data:" ++
    toL "; connect-src " ++ [quoteCh] ++ toL "self" ++ [quoteCh] ++
    toL "; font-src " ++ [quoteCh] ++ toL "self" ++ [quoteCh] ++
    toL "; object-src " ++ [quoteCh] ++ toL "none" ++ [quoteCh] ++
    toL "; media-src " ++ [quoteCh] ++ toL "self" ++ [quoteCh] ++
    toL "; frame-src " ++ [quoteCh] ++ toL "none" ++ [quoteCh] ++ toL ";"),
   (toL "Referrer-Policy", toL "strict-origin-when-cross-origin"),
   (toL "Permissions-Policy", toL "geolocation=(), microphone=(), camera=()"),
   (toL "Cache-Control", toL "no-store, no-cache, must-revalidate, proxy-revalidate"),
   (toL "Pragma", toL "no-cache"),
   (toL "Expires", toL "0")]

end SecurityHardening

/-! ### HTTP requests, responses and the two `security_middleware` decorators -/

/-- An inbound HTTP request as the middlewares see it: the parsed JSON body
(`none` when the request is not JSON) and the query parameters. -/
structure HttpRequest where
  jsonBody : Option JsonVal
  queryParams : List (PyStr × PyStr)
  deriving DecidableEq

/-- A handler response: either a Flask response object (which has a `headers`
attribute) or a bare value without one (`hasattr(response, 'headers')` false).
`α` is the response payload. -/
inductive Resp (α : Type) where
  | withHeaders (hs : List (PyStr × PyStr)) (body : α)
  | bare (body : α)
  deriving DecidableEq

/-- Outcome of a middleware-wrapped call: `abort(code, description)` or the
response handed back to Flask. -/
inductive MWResult (α : Type) where
  | aborted (code : Nat) (description : String)
  | ok (r : Resp α)
  deriving DecidableEq

/-- `response.headers[name] = value` on a dict-like header map: overwrite the
first binding of `name` or append a new one. -/
def setHeader (hs : List (PyStr × PyStr)) (name val : PyStr) : List (PyStr × PyStr) :=
  match hs with
  | [] => [(name, val)]
  | (n, v) :: rest => if n = name then (n, val) :: rest else (n, v) :: setHeader rest name val

/-- Assign each `(name, value)` pair of `upd` in order. -/
def applyHeaders (upd : List (PyStr × PyStr)) (hs : List (PyStr × PyStr)) : List (PyStr × PyStr) :=
  match upd with
  | [] => hs
  | (n, v) :: rest => applyHeaders rest (setHeader hs n v)

/-- Header lookup (first binding wins, as in a dict-like map). -/
def getHeader (name : PyStr) : List (PyStr × PyStr) → Option PyStr
  | [] => none
  | (n, v) :: rest => if n = name then some v else getHeader name rest

/-- Decorate a response with a header set when it has a `headers` attribute. -/
def addHeaders {α : Type} (upd : List (PyStr × PyStr)) : Resp α → Resp α
  | .withHeaders hs b => .withHeaders (applyHeaders upd hs) b
  | .bare b => .bare b

namespace MockServer

/-- The five headers set by `security_middleware` in mock_api_server.py
(lines 126-133), in source order. -/
def securityHeaders : List (PyStr × PyStr) :=
  [(toL "X-Content-Type-Options", toL "nosniff"),
   (toL "X-Frame-Options", toL "DENY"),
   (toL "X-XSS-Protection", toL "1; mode=block"),
   (toL "Content-Security-Policy", toL "default-src " ++ [quoteCh] ++ toL "self" ++ [quoteCh]),
   (toL "Referrer-Policy", toL "strict-origin-when-cross-origin")]

/-- Query-parameter loop of the mock server's middleware: every key and every
value must pass `SecurityValidator.validate_input`. -/
def queryOk (qs : List (PyStr × PyStr)) : Bool :=
  qs.all (fun kv => SecurityValidator.validate_input (.str kv.1) &&
                    SecurityValidator.validate_input (.str kv.2))

/-- `security_middleware` of mock_api_server.py (lines 94-136): when the JSON
body is truthy it is sanitized and the *sanitized* body validated (aborting
400 on failure) and stored back into the request, then every query key/value
is validated (aborting 400 on failure), then the wrapped handler runs on the
possibly-replaced body and its response is decorated with the header set. -/
def security_middleware {α : Type} (f : Option JsonVal → Resp α) (req : HttpRequest) :
    MWResult α :=
  match req.jsonBody with
  | some d =>
    if pyTruthy d then
      let d2 := SecurityValidator.sanitize_input d
      if SecurityValidator.validate_input d2 then
        if queryOk req.queryParams then .ok (addHeaders securityHeaders (f (some d2)))
        else .aborted 400 "Invalid query parameter"
      else .aborted 400 "Invalid input detected"
    else
      if queryOk req.queryParams then .ok (addHeaders securityHeaders (f (some d)))
      else .aborted 400 "Invalid query parameter"
  | none =>
    if queryOk req.queryParams then .ok (addHeaders securityHeaders (f none))
    else .aborted 400 "Invalid query parameter"

end MockServer

namespace Hardening

/-- Query-parameter loop of security-hardening.py's middleware. -/
def queryOk (qs : List (PyStr × PyStr)) : Bool :=
  qs.all (fun kv => SecurityHardening.validate_input (.str kv.1) &&
                    SecurityHardening.validate_input (.str kv.2))

/-- `security_middleware` of security-hardening.py (lines 221-255): a truthy
JSON body failing `SecurityHardening.validate_input` aborts 400; the body is
*not* sanitized or replaced; then query keys/values are validated (abort 400);
then the handler runs on the original body and `secure_headers()` is applied
to its response. -/
def security_middleware {α : Type} (f : Option JsonVal → Resp α) (req : HttpRequest) :
    MWResult α :=
  match req.jsonBody with
  | some d =>
    if pyTruthy d && !(SecurityHardening.validate_input d) then
      .aborted 400 "Invalid input detected"
    else
      if queryOk req.queryParams then
        .ok (addHeaders SecurityHardening.secure_headers (f (some d)))
      else .aborted 400 "Invalid query parameter"
  | none =>
    if queryOk req.queryParams then
      .ok (addHeaders SecurityHardening.secure_headers (f none))
    else .aborted 400 "Invalid query parameter"

end Hardening

/-! ### The Flask route registry of mock_api_server.py -/

/-- One registered Flask route: URL rule, methods, and whether the handler is
wrapped by `@security_middleware`. -/
structure Route where
  path : String
  methods : List String
  secured : Bool
  deriving DecidableEq

namespace MockServer

/-- Every `@app.route` registration of mock_api_server.py, in source order,
with `secured` recording the presence of the `@security_middleware` decorator
directly below it. -/
def routes : List Route :=
  [⟨"/health", ["GET"], false⟩,
   ⟨"/ai/claude/generate", ["POST"], true⟩,
   ⟨"/ai/openai/generate", ["POST"], true⟩,
   ⟨"/ai/compare", ["POST"], true⟩,
   ⟨"/ai/stories", ["POST"], true⟩,
   ⟨"/instagram/post", ["POST"], true⟩,
   ⟨"/analytics", ["GET"], false⟩,
   ⟨"/mcp/tools", ["GET"], true⟩,
   ⟨"/mcp/<tool_name>", ["POST"], true⟩,
   ⟨"/mcp/filesystem", ["POST"], false⟩,
   ⟨"/mcp/research", ["POST"], false⟩,
   ⟨"/mcp/images", ["POST"], false⟩,
   ⟨"/mcp/calendar", ["POST"], false⟩,
   ⟨"/mcp/analytics", ["POST"], false⟩,
   ⟨"/mcp/hashtags", ["POST"], false⟩,
   ⟨"/", ["GET"], false⟩]

/-- Dispatch a request: look the path up in the route registry; a secured
route goes through `security_middleware`, an unsecured one calls its handler
directly (only the `@app.before_request` logger runs first, which validates
nothing).  `none` when no route matches. -/
def serve {α : Type} (handlers : String → Option JsonVal → Resp α)
    (path : String) (req : HttpRequest) : Option (MWResult α) :=
  (routes.find? (fun r => r.path = path)).map
    (fun r => if r.secured then security_middleware (handlers path) req
              else .ok (handlers path req.jsonBody))

end MockServer

/-! ### `mcp_integration.py`: the MCP tool layer -/

namespace MCP

/-- The six tool names registered by `MCPManager._initialize_tools`, in
source order. -/
def toolNames : List String :=
  ["file_manager", "content_research", "image_generator",
   "calendar_manager", "analytics_tracker", "hashtag_optimizer"]

/-- The envelope built by `_mock_tool_call` / `_real_tool_call`: the fields of
the returned dict that do not depend on wall-clock time. -/
structure ToolResult where
  tool : String
  status : String
  data : JsonVal
  cost : String
  mock : Bool
  deriving DecidableEq

/-- A Python exception escaping `MCPManager.call_tool`: either the
`ValueError` it raises itself for an unknown tool name, or any other
exception (e.g. the `TypeError` a mock payload builder can raise). -/
inductive PyExc where
  | valueError (msg : String)
  | otherExc (msg : String)
  deriving DecidableEq

/-- The dict-literal construction of `mock_responses` inside
`_mock_tool_call` (mcp_integration.py lines 117-124): the six per-tool
builders `_mock_file_manager`, ..., `_mock_hashtag_optimizer` are all called
*eagerly*, in source order, on the same `parameters`; the first builder that
raises aborts the whole call.  `mockData n params` abstracts builder `n`
(its result involves `datetime.now()` and `random`; it raises — `.error` —
for instance when `_mock_file_manager` takes `len` of a non-sized `content`
or `_mock_image_generator` takes `hash` of an unhashable `prompt`). -/
def buildMockResponses (mockData : String → JsonVal → Except String JsonVal)
    (params : JsonVal) : List String → Except String (List (String × JsonVal))
  | [] => .ok []
  | n :: rest =>
    match mockData n params with
    | .error e => .error e
    | .ok v =>
      match buildMockResponses mockData params rest with
      | .error e => .error e
      | .ok tail => .ok ((n, v) :: tail)

/-- `MCPManager._mock_tool_call` (mcp_integration.py lines 112-135): build
all six mock payloads eagerly, look the requested tool up in the resulting
dict (with the `{"error": "Unknown tool"}` default of `.get`), and wrap it
in the success envelope. -/
def mock_tool_call (mockData : String → JsonVal → Except String JsonVal)
    (toolName : String) (params : JsonVal) : Except String ToolResult :=
  match buildMockResponses mockData params toolNames with
  | .error e => .error e
  | .ok resps =>
    .ok ⟨toolName, "success",
         (resps.lookup toolName).getD
           (.dict (.cons (toL "error") (.str (toL "Unknown tool")) .nil)),
         "$0.00 (Mock)", true⟩

/-- `MCPManager.call_tool` (mcp_integration.py lines 100-110).  `mockMode` is
`self.mock_mode`; `realCall` abstracts the HTTP round-trip of
`_real_tool_call`, which catches every exception of its own request and
returns a result dict, so it is modelled total.  An unknown tool name raises
`ValueError`; in mock mode an exception of a payload builder propagates as a
non-`ValueError` exception. -/
def call_tool (mockMode : Bool) (mockData : String → JsonVal → Except String JsonVal)
    (realCall : String → JsonVal → ToolResult)
    (toolName : String) (params : JsonVal) : Except PyExc ToolResult :=
  if toolName ∈ toolNames then
    if mockMode then
      match mock_tool_call mockData toolName params with
      | .error e => .error (.otherExc e)
      | .ok r => .ok r
    else
      .ok (realCall toolName params)
  else
    .error (.valueError ("Unknown MCP tool: " ++ toolName))

/-- `run_mcp_tool` (mcp_integration.py lines 333-336): a fresh manager plus
`asyncio.run` around `call_tool`; semantically the same computation. -/
def run_mcp_tool (mockMode : Bool) (mockData : String → JsonVal → Except String JsonVal)
    (realCall : String → JsonVal → ToolResult)
    (toolName : String) (params : JsonVal) : Except PyExc ToolResult :=
  call_tool mockMode mockData realCall toolName params

/-- An API response of the mock server's helpers: HTTP status code, `status`
field, `message` field. -/
structure ApiResp where
  code : Nat
  status : String
  message : PyStr
  deriving DecidableEq

/-- The `/mcp/<tool_name>` handler `call_mcp_tool` (mock_api_server.py lines
414-435), below its middleware: a missing or falsy JSON body yields
`error_response("No parameters provided")` (HTTP 400); a `ValueError` from
`run_mcp_tool` is mapped to `error_response(str(e), 404)`; any other
exception is caught by the `except Exception` branch and mapped to
`error_response("MCP tool execution failed: ...")` (HTTP 400); otherwise
`success_response(...)` (HTTP 200). -/
def call_mcp_tool (mockMode : Bool) (mockData : String → JsonVal → Except String JsonVal)
    (realCall : String → JsonVal → ToolResult)
    (toolName : String) (body : Option JsonVal) : ApiResp :=
  match body with
  | none => ⟨400, "error", toL "No parameters provided"⟩
  | some d =>
    if pyTruthy d then
      match run_mcp_tool mockMode mockData realCall toolName d with
      | .error (.valueError e) => ⟨404, "error", toL e⟩
      | .error (.otherExc e) =>
        ⟨400, "error", toL ("MCP tool execution failed: " ++ e)⟩
      | .ok _ =>
        ⟨200, "success",
         toL "MCP tool " ++ [quoteCh] ++ toL toolName ++ [quoteCh] ++
         toL " executed successfully"⟩
    else ⟨400, "error", toL "No parameters provided"⟩

end MCP

/-! ### Auxiliary definitions used only in theorem statements -/

/-- The 26 uppercase/lowercase ASCII pairs (for case analysis on `pyToLower`). -/
def pyUpperLowerPairs : List (Char × Char) :=
  [('A','a'),('B','b'),('C','c'),('D','d'),('E','e'),('F','f'),('G','g'),('H','h'),
   ('I','i'),('J','j'),('K','k'),('L','l'),('M','m'),('N','n'),('O','o'),('P','p'),
   ('Q','q'),('R','r'),('S','s'),('T','t'),('U','u'),('V','v'),('W','w'),('X','x'),
   ('Y','y'),('Z','z')]

mutual
/-- Modelled from the spec: "HTML-escaping applied recursively to a JSON
tree" — the structure-preserving map that applies a string transformation to
every non-key string of a JSON value and leaves dict keys, list shape and
non-string scalars unchanged.  Used to compare the implemented sanitizers
against the spec's description. -/
def specMapStrings (f : PyStr → PyStr) : JsonVal → JsonVal
  | .str s => .str (f s)
  | .num n => .num n
  | .boolean b => .boolean b
  | .null => .null
  | .dict e => .dict (specMapStringsE f e)
  | .arr l => .arr (specMapStringsL f l)
def specMapStringsL (f : PyStr → PyStr) : JsonList → JsonList
  | .nil => .nil
  | .cons v t => .cons (specMapStrings f v) (specMapStringsL f t)
def specMapStringsE (f : PyStr → PyStr) : JsonEntries → JsonEntries
  | .nil => .nil
  | .cons k v t => .cons k (specMapStrings f v) (specMapStringsE f t)
end

mutual
/-- All dict keys occurring anywhere in a JSON value. -/
def JsonVal.allKeys : JsonVal → List PyStr
  | .str _ => []
  | .num _ => []
  | .boolean _ => []
  | .null => []
  | .dict e => JsonEntries.allKeys e
  | .arr l => JsonList.allKeys l
def JsonList.allKeys : JsonList → List PyStr
  | .nil => []
  | .cons v t => JsonVal.allKeys v ++ JsonList.allKeys t
def JsonEntries.allKeys : JsonEntries → List PyStr
  | .nil => []
  | .cons k v t => k :: (JsonVal.allKeys v ++ JsonEntries.allKeys t)
end

/-- The five characters rewritten by `html.escape`. -/
def htmlSpecialChars : List Char := ['&', '<', '>', '"', quoteCh]

namespace MockServer

/-- Body-rejection condition of the mock server's middleware: a truthy JSON
body whose *sanitized* form fails validation. -/
def bodyBad (req : HttpRequest) : Bool :=
  match req.jsonBody with
  | some d => pyTruthy d &&
      !(SecurityValidator.validate_input (SecurityValidator.sanitize_input d))
  | none => false

/-- The body the wrapped handler observes when the middleware does not abort:
a truthy JSON body is replaced by its sanitized form. -/
def passedBody (req : HttpRequest) : Option JsonVal :=
  match req.jsonBody with
  | some d => if pyTruthy d then some (SecurityValidator.sanitize_input d) else some d
  | none => none

end MockServer

namespace Hardening

/-- Body-rejection condition of security-hardening.py's middleware: a truthy
JSON body failing validation (no sanitization here). -/
def bodyBad (req : HttpRequest) : Bool :=
  match req.jsonBody with
  | some d => pyTruthy d && !(SecurityHardening.validate_input d)
  | none => false

end Hardening

/-! ### Helper lemmas: validation is a pure function of the nested strings -/

mutual
theorem sv_validate_iff (v : JsonVal) :
    SecurityValidator.validate_input v = true ↔
      ∀ s ∈ JsonVal.allStrings v, SecurityValidator.stringDangerous s = false := by
  cases v with
  | str s => simp [SecurityValidator.validate_input, JsonVal.allStrings]
  | num n => simp [SecurityValidator.validate_input, JsonVal.allStrings]
  | boolean b => simp [SecurityValidator.validate_input, JsonVal.allStrings]
  | null => simp [SecurityValidator.validate_input, JsonVal.allStrings]
  | dict e =>
    simpa [SecurityValidator.validate_input, JsonVal.allStrings] using sv_validate_iffE e
  | arr l =>
    simpa [SecurityValidator.validate_input, JsonVal.allStrings] using sv_validate_iffL l
theorem sv_validate_iffL (l : JsonList) :
    SecurityValidator.validateList l = true ↔
      ∀ s ∈ JsonList.allStrings l, SecurityValidator.stringDangerous s = false := by
  cases l with
  | nil => simp [SecurityValidator.validateList, JsonList.allStrings]
  | cons v t =>
    simp only [SecurityValidator.validateList, Bool.and_eq_true, JsonList.allStrings,
      List.mem_append, sv_validate_iff v, sv_validate_iffL t]
    constructor
    · rintro ⟨h1, h2⟩ s hs
      exact hs.elim (h1 s) (h2 s)
    · intro h
      exact ⟨fun s hs => h s (Or.inl hs), fun s hs => h s (Or.inr hs)⟩
theorem sv_validate_iffE (e : JsonEntries) :
    SecurityValidator.validateEntries e = true ↔
      ∀ s ∈ JsonEntries.allStrings e, SecurityValidator.stringDangerous s = false := by
  cases e with
  | nil => simp [SecurityValidator.validateEntries, JsonEntries.allStrings]
  | cons k v t =>
    simp only [SecurityValidator.validateEntries, Bool.and_eq_true, JsonEntries.allStrings,
      List.mem_cons, List.mem_append, sv_validate_iff v, sv_validate_iffE t]
    constructor
    · rintro ⟨⟨hk, h1⟩, h2⟩ s hs
      rcases hs with rfl | hs
      · simpa using hk
      · exact hs.elim (h1 s) (h2 s)
    · intro h
      refine ⟨⟨?_, fun s hs => h s (Or.inr (Or.inl hs))⟩, fun s hs => h s (Or.inr (Or.inr hs))⟩
      simpa using h k (Or.inl rfl)
end

mutual
theorem sh_validate_iff (v : JsonVal) :
    SecurityHardening.validate_input v = true ↔
      ∀ s ∈ JsonVal.allStrings v, SecurityHardening.stringDangerous s = false := by
  cases v with
  | str s => simp [SecurityHardening.validate_input, JsonVal.allStrings]
  | num n => simp [SecurityHardening.validate_input, JsonVal.allStrings]
  | boolean b => simp [SecurityHardening.validate_input, JsonVal.allStrings]
  | null => simp [SecurityHardening.validate_input, JsonVal.allStrings]
  | dict e =>
    simpa [SecurityHardening.validate_input, JsonVal.allStrings] using sh_validate_iffE e
  | arr l =>
    simpa [SecurityHardening.validate_input, JsonVal.allStrings] using sh_validate_iffL l
theorem sh_validate_iffL (l : JsonList) :
    SecurityHardening.validateList l = true ↔
      ∀ s ∈ JsonList.allStrings l, SecurityHardening.stringDangerous s = false := by
  cases l with
  | nil => simp [SecurityHardening.validateList, JsonList.allStrings]
  | cons v t =>
    simp only [SecurityHardening.validateList, Bool.and_eq_true, JsonList.allStrings,
      List.mem_append, sh_validate_iff v, sh_validate_iffL t]
    constructor
    · rintro ⟨h1, h2⟩ s hs
      exact hs.elim (h1 s) (h2 s)
    · intro h
      exact ⟨fun s hs => h s (Or.inl hs), fun s hs => h s (Or.inr hs)⟩
theorem sh_validate_iffE (e : JsonEntries) :
    SecurityHardening.validateEntries e = true ↔
      ∀ s ∈ JsonEntries.allStrings e, SecurityHardening.stringDangerous s = false := by
  cases e with
  | nil => simp [SecurityHardening.validateEntries, JsonEntries.allStrings]
  | cons k v t =>
    simp only [SecurityHardening.validateEntries, Bool.and_eq_true, JsonEntries.allStrings,
      List.mem_cons, List.mem_append, sh_validate_iff v, sh_validate_iffE t]
    constructor
    · rintro ⟨⟨hk, h1⟩, h2⟩ s hs
      rcases hs with rfl | hs
      · simpa using hk
      · exact hs.elim (h1 s) (h2 s)
    · intro h
      refine ⟨⟨?_, fun s hs => h s (Or.inr (Or.inl hs))⟩, fun s hs => h s (Or.inr (Or.inr hs))⟩
      simpa using h k (Or.inl rfl)
end

/-! ### Claim C2 -/

/-- C2: for every input value, `validate_input` (both the `SecurityHardening`
and the `SecurityValidator` version) returns `False` iff some string occurring
anywhere in the value — the value itself, a dict key, a dict value, or a list
element, at any nesting depth — matches at least one regular expression of the
SQL-injection, XSS, command-injection, or path-traversal pattern sets; values
containing no such string (in particular all non-string scalars) validate to
`True`. -/
theorem c2_validate_input_iff_dangerous_string (v : JsonVal) :
    (SecurityHardening.validate_input v = false ↔
      ∃ s ∈ JsonVal.allStrings v,
        (SecurityHardening.detect_sql_injection s = true ∨
         SecurityHardening.detect_xss s = true ∨
         SecurityHardening.detect_command_injection s = true ∨
         SecurityHardening.detect_path_traversal s = true)) ∧
    (SecurityValidator.validate_input v = false ↔
      ∃ s ∈ JsonVal.allStrings v,
        SecurityValidator.DANGEROUS_PATTERNS.any (fun m => m (pyLower s)) = true) := by
  constructor
  · rw [Bool.eq_false_iff, Ne, sh_validate_iff v]
    simp only [not_forall, exists_prop, Bool.not_eq_false,
      SecurityHardening.stringDangerous, Bool.or_eq_true, or_assoc]
  · rw [Bool.eq_false_iff, Ne, sv_validate_iff v]
    simp only [not_forall, exists_prop, Bool.not_eq_false, SecurityValidator.stringDangerous]

/-! ### Claim C3 -/

/-- C3 counterexample: the `/health` route of the mock server is registered
without `@security_middleware`; a request whose query parameter value `";"`
fails `SecurityValidator.validate_input` nevertheless reaches the handler. -/
theorem c3_counterexample :
    MockServer.serve (fun _ b => Resp.bare b) "/health"
        ⟨none, [(toL "q", [';'])]⟩ = some (.ok (Resp.bare (none : Option JsonVal))) ∧
    MockServer.queryOk [(toL "q", [';'])] = false ∧
    (⟨"/health", ["GET"], false⟩ : Route) ∈ MockServer.routes := by decide

/-- C3 amended: only the routes explicitly decorated with
`@security_middleware` (`/ai/claude/generate`, `/ai/openai/generate`,
`/ai/compare`, `/ai/stories`, `/instagram/post`, `/mcp/tools`,
`/mcp/<tool_name>`) pass through the validation middleware; requests to the
remaining routes (`/health`, `/analytics`, the six `/mcp/` aliases and `/`)
reach their handlers with no validation at all. -/
theorem c3_amended_only_decorated_routes_validated :
    (∀ r ∈ MockServer.routes,
      r.secured = (r.path ∈ ["/ai/claude/generate", "/ai/openai/generate", "/ai/compare",
        "/ai/stories", "/instagram/post", "/mcp/tools", "/mcp/<tool_name>"])) ∧
    ∀ (α : Type) (handlers : String → Option JsonVal → Resp α) (req : HttpRequest),
      ∀ r ∈ MockServer.routes,
        MockServer.serve handlers r.path req =
          some (if r.secured then MockServer.security_middleware (handlers r.path) req
                else .ok (handlers r.path req.jsonBody)) := by
  refine ⟨by decide, ?_⟩
  intro α handlers req r hr
  fin_cases hr <;> rfl

/-- C3 amended, witness: the `/health` route is dispatched without the
middleware. -/
theorem c3_amended_witness :
    MockServer.serve (fun _ b => Resp.bare b) "/health" ⟨none, []⟩
      = some (.ok (Resp.bare (none : Option JsonVal))) := by
  have h := c3_amended_only_decorated_routes_validated.2 (Option JsonVal)
    (fun _ b => Resp.bare b) ⟨none, []⟩ ⟨"/health", ["GET"], false⟩ (by decide)
  simpa using h

/-! ### Claim C7 -/

/-- C7 counterexample: the two duplicated validators are not behaviourally
identical: the string `"ping"` is rejected by `SecurityHardening.validate_input`
(whose command word list contains `ping`) but accepted by
`SecurityValidator.validate_input` (whose word list does not). -/
theorem c7_counterexample :
    SecurityHardening.validate_input (.str (toL "ping")) = false ∧
    SecurityValidator.validate_input (.str (toL "ping")) = true := by decide

/-! ### Claim C10 -/

theorem buildMockResponses_all_ok (mockData : String → JsonVal → Except String JsonVal)
    (params : JsonVal) (f : String → JsonVal) :
    ∀ names : List String, (∀ n ∈ names, mockData n params = .ok (f n)) →
      MCP.buildMockResponses mockData params names
        = .ok (names.map (fun n => (n, f n))) := by
  intro names
  induction names with
  | nil => intro _; rfl
  | cons n rest ih =>
    intro h
    have hn := h n (List.mem_cons_self n rest)
    have hr := ih (fun m hm => h m (List.mem_cons_of_mem n hm))
    simp [MCP.buildMockResponses, hn, hr]

theorem lookup_map_pair_self (f : String → JsonVal) (name : String) :
    ∀ names : List String, name ∈ names →
      (names.map (fun n => (n, f n))).lookup name = some (f name) := by
  intro names
  induction names with
  | nil => intro h; exact absurd h (List.not_mem_nil name)
  | cons n rest ih =>
    intro h
    by_cases he : name = n
    · subst he
      simp [List.lookup]
    · rcases List.mem_cons.mp h with rfl | hm
      · exact absurd rfl he
      · have hbe : (name == n) = false := by simp [he]
        simp [List.lookup, hbe, ih hm]

/-- C10 counterexample: in mock mode a *registered* tool call need not return
the success envelope, because `_mock_tool_call` eagerly builds the payloads
of all six tools on the given parameters, and a builder can raise: with the
payload builders instantiated so that `image_generator` raises (as
`_mock_image_generator` does through `hash(prompt)` on an unhashable
`prompt`), calling the registered tool `content_research` on
`{"prompt": [1]}` yields a non-`ValueError` exception, which the
`/mcp/<tool_name>` handler maps to HTTP 400 ("MCP tool execution failed"),
not to the claimed success envelope nor to 404. -/
theorem c10_counterexample :
    ("content_research" ∈ MCP.toolNames) ∧
    MCP.call_tool true
        (fun n _ => if n = "image_generator"
          then .error "unhashable type: list" else .ok .null)
        (fun n _ => ⟨n, "err", .null, "na", false⟩)
        "content_research"
        (.dict (.cons (toL "prompt") (.arr (.cons (.num 1) .nil)) .nil))
      = .error (.otherExc "unhashable type: list") ∧
    MCP.call_mcp_tool true
        (fun n _ => if n = "image_generator"
          then .error "unhashable type: list" else .ok .null)
        (fun n _ => ⟨n, "err", .null, "na", false⟩)
        "content_research"
        (some (.dict (.cons (toL "prompt") (.arr (.cons (.num 1) .nil)) .nil)))
      = ⟨400, "error", toL "MCP tool execution failed: unhashable type: list"⟩ :=
  ⟨by decide, rfl, rfl⟩

/-- C10 amended: `MCPManager.call_tool` (and its synchronous wrapper
`run_mcp_tool`) raises `ValueError` exactly when the requested tool name is
not one of the six registered tools; in mock mode, for a registered tool,
*provided every one of the six eagerly-evaluated mock payload builders
returns normally on the given parameter dict*, it returns a dict with status
`"success"`, `mock` `True` and cost `"$0.00 (Mock)"` (a builder that raises
aborts the call with a non-`ValueError` exception instead); the
`/mcp/<tool_name>` endpoint maps the `ValueError` case to an HTTP 404 error
response and any other exception to an HTTP 400 "MCP tool execution failed"
response. -/
theorem c10_amended_call_tool_valueerror_iff_unknown_and_envelope
    (mockMode : Bool) (mockData : String → JsonVal → Except String JsonVal)
    (realCall : String → JsonVal → MCP.ToolResult) (name : String) (params : JsonVal)
    (f : String → JsonVal) :
    ((∃ e, MCP.call_tool mockMode mockData realCall name params
        = .error (.valueError e)) ↔ name ∉ MCP.toolNames) ∧
    (MCP.run_mcp_tool mockMode mockData realCall name params
      = MCP.call_tool mockMode mockData realCall name params) ∧
    (name ∈ MCP.toolNames → mockMode = true →
      (∀ n ∈ MCP.toolNames, mockData n params = .ok (f n)) →
      MCP.call_tool mockMode mockData realCall name params
        = .ok ⟨name, "success", f name, "$0.00 (Mock)", true⟩) ∧
    (name ∉ MCP.toolNames → pyTruthy params = true →
      MCP.call_mcp_tool mockMode mockData realCall name (some params)
        = ⟨404, "error", toL ("Unknown MCP tool: " ++ name)⟩) ∧
    (∀ e, name ∈ MCP.toolNames → mockMode = true → pyTruthy params = true →
      MCP.buildMockResponses mockData params MCP.toolNames = .error e →
      MCP.call_mcp_tool mockMode mockData realCall name (some params)
        = ⟨400, "error", toL ("MCP tool execution failed: " ++ e)⟩) := by
  refine ⟨?_, rfl, ?_, ?_, ?_⟩
  · unfold MCP.call_tool
    by_cases h : name ∈ MCP.toolNames
    · simp only [if_pos h]
      constructor
      · rintro ⟨e, he⟩
        cases mockMode with
        | true =>
          simp only [if_pos rfl] at he
          cases hm : MCP.mock_tool_call mockData name params with
          | error e2 => rw [hm] at he; cases he
          | ok r => rw [hm] at he; cases he
        | false => simp at he
      · intro hn
        exact absurd h hn
    · simp [h]
  · intro h hm hall
    subst hm
    unfold MCP.call_tool MCP.mock_tool_call
    rw [buildMockResponses_all_ok mockData params f MCP.toolNames hall]
    simp [h, lookup_map_pair_self f name MCP.toolNames h]
  · intro h ht
    unfold MCP.call_mcp_tool MCP.run_mcp_tool MCP.call_tool
    simp [h, ht]
  · intro e h hm ht hbuild
    subst hm
    unfold MCP.call_mcp_tool MCP.run_mcp_tool MCP.call_tool MCP.mock_tool_call
    simp [h, ht, hbuild]

/-- C10 amended, witness: with builders that all return normally, a
registered mock-mode call yields the success envelope, and an unknown tool
maps to 404. -/
theorem c10_amended_witness :
    MCP.call_tool true (fun _ _ => .ok .null)
        (fun n _ => ⟨n, "err", .null, "na", false⟩) "file_manager" .null
      = .ok ⟨"file_manager", "success", .null, "$0.00 (Mock)", true⟩ ∧
    MCP.call_mcp_tool true (fun _ _ => .ok .null)
        (fun n _ => ⟨n, "err", .null, "na", false⟩) "nope" (some (.num 1))
      = ⟨404, "error", toL "Unknown MCP tool: nope"⟩ :=
  ⟨(c10_amended_call_tool_valueerror_iff_unknown_and_envelope true (fun _ _ => .ok .null)
      (fun n _ => ⟨n, "err", .null, "na", false⟩) "file_manager" .null
      (fun _ => .null)).2.2.1 (by decide) rfl (fun _ _ => rfl),
   (c10_amended_call_tool_valueerror_iff_unknown_and_envelope true (fun _ _ => .ok .null)
      (fun n _ => ⟨n, "err", .null, "na", false⟩) "nope" (.num 1)
      (fun _ => .null)).2.2.2.1 (by decide) (by decide)⟩

/-! ### Lowering invariance of the case-insensitive matchers -/

theorem pyToLower_spec (c : Char) :
    pyToLower c = c ∨ (c, pyToLower c) ∈ pyUpperLowerPairs := by
  unfold pyToLower
  split <;> first
    | (left ; rfl)
    | (right ; decide)

theorem pyToLower_char_facts (c : Char) :
    pyToLower (pyToLower c) = pyToLower c ∧
    isWordChar (pyToLower c) = isWordChar c ∧
    cmdClassChars.contains (pyToLower c) = cmdClassChars.contains c := by
  rcases pyToLower_spec c with h | h
  · simp [h]
  · simp only [pyUpperLowerPairs, List.mem_cons, List.not_mem_nil, or_false,
      Prod.mk.injEq] at h
    rcases h with ⟨rfl, h2⟩|⟨rfl, h2⟩|⟨rfl, h2⟩|⟨rfl, h2⟩|⟨rfl, h2⟩|⟨rfl, h2⟩|⟨rfl, h2⟩|
      ⟨rfl, h2⟩|⟨rfl, h2⟩|⟨rfl, h2⟩|⟨rfl, h2⟩|⟨rfl, h2⟩|⟨rfl, h2⟩|⟨rfl, h2⟩|⟨rfl, h2⟩|
      ⟨rfl, h2⟩|⟨rfl, h2⟩|⟨rfl, h2⟩|⟨rfl, h2⟩|⟨rfl, h2⟩|⟨rfl, h2⟩|⟨rfl, h2⟩|⟨rfl, h2⟩|
      ⟨rfl, h2⟩|⟨rfl, h2⟩|⟨rfl, h2⟩ <;> decide

theorem pyToLower_pyToLower (c : Char) : pyToLower (pyToLower c) = pyToLower c :=
  (pyToLower_char_facts c).1

theorem ciEq_pyToLower_right (p c : Char) : ciEq p (pyToLower c) = ciEq p c := by
  simp [ciEq, pyToLower_pyToLower]

theorem isWordChar_pyToLower (c : Char) : isWordChar (pyToLower c) = isWordChar c :=
  (pyToLower_char_facts c).2.1

theorem cmdClassChars_pyToLower (c : Char) :
    cmdClassChars.contains (pyToLower c) = cmdClassChars.contains c :=
  (pyToLower_char_facts c).2.2

theorem subAt_pyLower (s : PyStr) : ∀ pat, subAt pat (pyLower s) = subAt pat s := by
  induction s with
  | nil => intro pat; cases pat <;> rfl
  | cons c cs ih =>
    intro pat
    cases pat with
    | nil => rfl
    | cons p ps =>
      simp only [pyLower, List.map_cons, subAt, ciEq_pyToLower_right]
      rw [show List.map pyToLower cs = pyLower cs from rfl, ih ps]

theorem anyPos_pyLower (p q : PyStr → Bool)
    (hpq : ∀ t, p (pyLower t) = q t) (s : PyStr) : anyPos p (pyLower s) = anyPos q s := by
  induction s with
  | nil => simpa [pyLower, anyPos] using hpq []
  | cons c cs ih =>
    simp only [pyLower, List.map_cons, anyPos]
    rw [show pyToLower c :: List.map pyToLower cs = pyLower (c :: cs) from rfl, hpq (c :: cs)]
    rw [show List.map pyToLower cs = pyLower cs from rfl, ih]

theorem containsCI_pyLower (pat s : PyStr) : containsCI pat (pyLower s) = containsCI pat s :=
  anyPos_pyLower (subAt pat) (subAt pat) (fun t => subAt_pyLower t pat) s

theorem dropMatchCI_pyLower (s : PyStr) :
    ∀ w, dropMatchCI w (pyLower s) = Option.map pyLower (dropMatchCI w s) := by
  induction s with
  | nil => intro w; cases w <;> rfl
  | cons c cs ih =>
    intro w
    cases w with
    | nil => rfl
    | cons p ps =>
      simp only [pyLower, List.map_cons, dropMatchCI, ciEq_pyToLower_right]
      by_cases h : ciEq p c = true
      · simp only [if_pos h]
        exact ih ps
      · simp only [if_neg h]
        rfl

theorem wordHitAt_pyLower (w s : PyStr) : wordHitAt w (pyLower s) = wordHitAt w s := by
  unfold wordHitAt
  rw [dropMatchCI_pyLower s w]
  cases dropMatchCI w s with
  | none => rfl
  | some r =>
    cases r with
    | nil => rfl
    | cons c cr => simp [pyLower, isWordChar_pyToLower]

theorem boundaryB_map_pyToLower (prv : Option Char) :
    boundaryB (prv.map pyToLower) = boundaryB prv := by
  cases prv with
  | none => rfl
  | some c => simp [boundaryB, isWordChar_pyToLower]

theorem hasWordAux_pyLower (w : PyStr) (s : PyStr) :
    ∀ prv, hasWordAux w (prv.map pyToLower) (pyLower s) = hasWordAux w prv s := by
  induction s with
  | nil => intro prv; rfl
  | cons c cs ih =>
    intro prv
    simp only [pyLower, List.map_cons, hasWordAux, boundaryB_map_pyToLower]
    rw [show (pyToLower c :: List.map pyToLower cs : PyStr) = pyLower (c :: cs) from rfl,
      wordHitAt_pyLower]
    rw [show (some (pyToLower c)) = Option.map pyToLower (some c) from rfl]
    rw [show (List.map pyToLower cs : PyStr) = pyLower cs from rfl, ih (some c)]

theorem anyWordHit_pyLower (ws : List PyStr) (s : PyStr) :
    anyWordHit ws (pyLower s) = anyWordHit ws s := by
  simp only [anyWordHit]
  congr 1
  funext w
  simpa using hasWordAux_pyLower w s none

theorem cmdClassPat_pyLower (s : PyStr) : cmdClassPat (pyLower s) = cmdClassPat s := by
  simp only [cmdClassPat, pyLower, List.any_map]
  congr 1
  funext c
  simpa using cmdClassChars_pyToLower c

theorem cmdWordsMockPat_imp_hard (t : PyStr) :
    cmdWordsMockPat t = true → cmdWordsHardPat t = true := by
  simp only [cmdWordsMockPat, cmdWordsHardPat, anyWordHit, List.any_eq_true]
  rintro ⟨w, hw, hhit⟩
  refine ⟨w, ?_, hhit⟩
  fin_cases hw <;> decide

theorem dotDotPat_pyLower (s : PyStr) : dotDotPat (pyLower s) = dotDotPat s := by
  simp only [dotDotPat, containsCI_pyLower]

theorem pctDotPat_pyLower (s : PyStr) : pctDotPat (pyLower s) = pctDotPat s := by
  simp only [pctDotPat, containsCI_pyLower]

/-- Every string the mock validator flags, the hardening validator flags. -/
theorem sv_dangerous_imp_sh_dangerous (s : PyStr) :
    SecurityValidator.stringDangerous s = true → SecurityHardening.stringDangerous s = true := by
  intro h
  simp only [SecurityValidator.stringDangerous, SecurityValidator.DANGEROUS_PATTERNS,
    List.any_cons, List.any_nil, Bool.or_eq_true, Bool.or_false] at h
  simp only [SecurityHardening.stringDangerous, SecurityHardening.detect_sql_injection,
    SecurityHardening.detect_xss, SecurityHardening.detect_command_injection,
    SecurityHardening.detect_path_traversal, SecurityHardening.SQL_INJECTION_PATTERNS,
    SecurityHardening.XSS_PATTERNS, SecurityHardening.COMMAND_INJECTION_PATTERNS,
    SecurityHardening.PATH_TRAVERSAL_PATTERNS, List.any_cons, List.any_nil,
    Bool.or_eq_true, Bool.or_false]
  rcases h with h|h|h|h|h|h|h|h|h|h|h|h|h
  · simp [h]
  · simp [h]
  · simp [h]
  · simp [h]
  · simp [h]
  · simp [h]
  · simp [h]
  · simp [h]
  · simp [h]
  · rw [cmdClassPat_pyLower] at h
    simp [h]
  · rw [show cmdWordsMockPat (pyLower s) = cmdWordsMockPat s from by
      simp [cmdWordsMockPat, anyWordHit_pyLower]] at h
    simp [cmdWordsMockPat_imp_hard s h]
  · rw [dotDotPat_pyLower] at h
    simp [h]
  · rw [pctDotPat_pyLower] at h
    simp [h]

/-- C7 amended: the duplicated validators are not behaviourally identical, but
they are ordered: `SecurityValidator.validate_input` (mock_api_server.py)
accepts every value `SecurityHardening.validate_input` (security-hardening.py)
accepts, because the mock pattern list is a subset of the hardening pattern
sets; the converse fails (see the counterexample `"ping"`). -/
theorem c7_amended_hardening_accepts_implies_mock_accepts (v : JsonVal)
    (h : SecurityHardening.validate_input v = true) :
    SecurityValidator.validate_input v = true := by
  rw [sv_validate_iff]
  rw [sh_validate_iff] at h
  intro s hs
  by_contra hbad
  have h1 : SecurityValidator.stringDangerous s = true := by
    revert hbad
    cases SecurityValidator.stringDangerous s <;> simp
  have h2 := sv_dangerous_imp_sh_dangerous s h1
  rw [h s hs] at h2
  exact Bool.false_ne_true h2

/-- C7 amended, witness: a value both validators accept. -/
theorem c7_amended_witness :
    SecurityHardening.validate_input (.str (toL "hello")) = true ∧
    SecurityValidator.validate_input (.str (toL "hello")) = true :=
  ⟨by decide,
   c7_amended_hardening_accepts_implies_mock_accepts (.str (toL "hello")) (by decide)⟩

/-! ### Helper lemmas about the sanitizers -/

mutual
theorem sv_sanitize_eq_spec (v : JsonVal) :
    SecurityValidator.sanitize_input v = specMapStrings SecurityValidator.sanitizeStr v := by
  cases v with
  | str s => rfl
  | num n => rfl
  | boolean b => rfl
  | null => rfl
  | dict e =>
    simp only [SecurityValidator.sanitize_input, specMapStrings, sv_sanitizeE_eq_spec e]
  | arr l =>
    simp only [SecurityValidator.sanitize_input, specMapStrings, sv_sanitizeL_eq_spec l]
theorem sv_sanitizeL_eq_spec (l : JsonList) :
    SecurityValidator.sanitizeList l = specMapStringsL SecurityValidator.sanitizeStr l := by
  cases l with
  | nil => rfl
  | cons v t =>
    simp only [SecurityValidator.sanitizeList, specMapStringsL,
      sv_sanitize_eq_spec v, sv_sanitizeL_eq_spec t]
theorem sv_sanitizeE_eq_spec (e : JsonEntries) :
    SecurityValidator.sanitizeEntries e = specMapStringsE SecurityValidator.sanitizeStr e := by
  cases e with
  | nil => rfl
  | cons k v t =>
    simp only [SecurityValidator.sanitizeEntries, specMapStringsE,
      sv_sanitize_eq_spec v, sv_sanitizeE_eq_spec t]
end

mutual
theorem sh_sanitize_eq_spec (bf : PyStr → PyStr) (v : JsonVal) :
    SecurityHardening.sanitize_input bf v
      = specMapStrings (SecurityHardening.sanitizeStr bf) v := by
  cases v with
  | str s => rfl
  | num n => rfl
  | boolean b => rfl
  | null => rfl
  | dict e =>
    simp only [SecurityHardening.sanitize_input, specMapStrings, sh_sanitizeE_eq_spec bf e]
  | arr l =>
    simp only [SecurityHardening.sanitize_input, specMapStrings, sh_sanitizeL_eq_spec bf l]
theorem sh_sanitizeL_eq_spec (bf : PyStr → PyStr) (l : JsonList) :
    SecurityHardening.sanitizeList bf l
      = specMapStringsL (SecurityHardening.sanitizeStr bf) l := by
  cases l with
  | nil => rfl
  | cons v t =>
    simp only [SecurityHardening.sanitizeList, specMapStringsL,
      sh_sanitize_eq_spec bf v, sh_sanitizeL_eq_spec bf t]
theorem sh_sanitizeE_eq_spec (bf : PyStr → PyStr) (e : JsonEntries) :
    SecurityHardening.sanitizeEntries bf e
      = specMapStringsE (SecurityHardening.sanitizeStr bf) e := by
  cases e with
  | nil => rfl
  | cons k v t =>
    simp only [SecurityHardening.sanitizeEntries, specMapStringsE,
      sh_sanitize_eq_spec bf v, sh_sanitizeE_eq_spec bf t]
end

mutual
theorem valueStrings_specMap (f : PyStr → PyStr) (v : JsonVal) :
    JsonVal.valueStrings (specMapStrings f v) = (JsonVal.valueStrings v).map f := by
  cases v with
  | str s => rfl
  | num n => rfl
  | boolean b => rfl
  | null => rfl
  | dict e =>
    simp only [specMapStrings, JsonVal.valueStrings, valueStrings_specMapE f e]
  | arr l =>
    simp only [specMapStrings, JsonVal.valueStrings, valueStrings_specMapL f l]
theorem valueStrings_specMapL (f : PyStr → PyStr) (l : JsonList) :
    JsonList.valueStrings (specMapStringsL f l) = (JsonList.valueStrings l).map f := by
  cases l with
  | nil => rfl
  | cons v t =>
    simp only [specMapStringsL, JsonList.valueStrings, valueStrings_specMap f v,
      valueStrings_specMapL f t, List.map_append]
theorem valueStrings_specMapE (f : PyStr → PyStr) (e : JsonEntries) :
    JsonEntries.valueStrings (specMapStringsE f e) = (JsonEntries.valueStrings e).map f := by
  cases e with
  | nil => rfl
  | cons k v t =>
    simp only [specMapStringsE, JsonEntries.valueStrings, valueStrings_specMap f v,
      valueStrings_specMapE f t, List.map_append]
end

mutual
theorem allKeys_specMap (f : PyStr → PyStr) (v : JsonVal) :
    JsonVal.allKeys (specMapStrings f v) = JsonVal.allKeys v := by
  cases v with
  | str s => rfl
  | num n => rfl
  | boolean b => rfl
  | null => rfl
  | dict e => simp only [specMapStrings, JsonVal.allKeys, allKeys_specMapE f e]
  | arr l => simp only [specMapStrings, JsonVal.allKeys, allKeys_specMapL f l]
theorem allKeys_specMapL (f : PyStr → PyStr) (l : JsonList) :
    JsonList.allKeys (specMapStringsL f l) = JsonList.allKeys l := by
  cases l with
  | nil => rfl
  | cons v t =>
    simp only [specMapStringsL, JsonList.allKeys, allKeys_specMap f v, allKeys_specMapL f t]
theorem allKeys_specMapE (f : PyStr → PyStr) (e : JsonEntries) :
    JsonEntries.allKeys (specMapStringsE f e) = JsonEntries.allKeys e := by
  cases e with
  | nil => rfl
  | cons k v t =>
    simp only [specMapStringsE, JsonEntries.allKeys, allKeys_specMap f v, allKeys_specMapE f t]
end

theorem sv_sanitizeStr_props (s : PyStr) :
    (SecurityValidator.sanitizeStr s).length ≤ 10000 ∧
      nullCh ∉ SecurityValidator.sanitizeStr s := by
  unfold SecurityValidator.sanitizeStr
  set t2 := (SecurityValidator.htmlEscape s).filter (fun c => c != nullCh) with ht2
  have hnull : nullCh ∉ t2 := by
    intro hm
    have := (List.mem_filter.mp hm).2
    simp at this
  by_cases h : t2.length > 10000
  · simp only [if_pos h]
    refine ⟨?_, fun hm => hnull (List.take_subset 10000 t2 hm)⟩
    rw [List.length_take]
    exact min_le_left _ _
  · simp only [if_neg h]
    exact ⟨Nat.le_of_not_lt h, hnull⟩

theorem sh_sanitizeStr_props (bf : PyStr → PyStr) (s : PyStr) :
    (SecurityHardening.sanitizeStr bf s).length ≤ 10000 ∧
      nullCh ∉ SecurityHardening.sanitizeStr bf s := by
  unfold SecurityHardening.sanitizeStr
  set t2 := (bf (SecurityValidator.htmlEscape s)).filter (fun c => c != nullCh) with ht2
  have hnull : nullCh ∉ t2 := by
    intro hm
    have := (List.mem_filter.mp hm).2
    simp at this
  by_cases h : t2.length > 10000
  · simp only [if_pos h]
    refine ⟨?_, fun hm => hnull (List.take_subset 10000 t2 hm)⟩
    rw [List.length_take]
    exact min_le_left _ _
  · simp only [if_neg h]
    exact ⟨Nat.le_of_not_lt h, hnull⟩

/-! ### Claim C4 -/

/-- C4 counterexample: `sanitize_input` does not HTML-escape *every* string
occurring in the value: dict keys are passed through untouched.  The dict
`{"<": null}` is returned unchanged although `html.escape` rewrites `"<"`. -/
theorem c4_counterexample :
    SecurityValidator.sanitize_input (.dict (.cons (toL "<") .null .nil))
      = .dict (.cons (toL "<") .null .nil) ∧
    SecurityValidator.htmlEscape (toL "<") ≠ toL "<" := by decide

/-- C4 amended: `sanitize_input` (both versions) is exactly the
structure-preserving map that applies its string transformation — HTML
escaping followed by null-byte removal and truncation to 10000 characters
(with `bleach.clean` in between for the `SecurityHardening` version) — to
every *non-key* string, leaving dict keys, the order and number of list
elements, and every non-string scalar unchanged. -/
theorem c4_amended_sanitize_is_string_map (v : JsonVal) (bf : PyStr → PyStr) :
    SecurityValidator.sanitize_input v = specMapStrings SecurityValidator.sanitizeStr v ∧
    SecurityHardening.sanitize_input bf v
      = specMapStrings (SecurityHardening.sanitizeStr bf) v ∧
    JsonVal.valueStrings (SecurityValidator.sanitize_input v)
      = (JsonVal.valueStrings v).map SecurityValidator.sanitizeStr ∧
    JsonVal.allKeys (SecurityValidator.sanitize_input v) = JsonVal.allKeys v := by
  refine ⟨sv_sanitize_eq_spec v, sh_sanitize_eq_spec bf v, ?_, ?_⟩
  · rw [sv_sanitize_eq_spec v, valueStrings_specMap]
  · rw [sv_sanitize_eq_spec v, allKeys_specMap]

/-! ### Claim C9 -/

/-- C9 counterexample: a dict key is *not* sanitized, so the result of
`sanitize_input` can contain a string holding a null byte (and likewise one
longer than 10000 characters). -/
theorem c9_counterexample :
    JsonVal.allStrings
        (SecurityValidator.sanitize_input (.dict (.cons [nullCh] .null .nil)))
      = [[nullCh]] ∧
    nullCh ∈ [nullCh] := by decide

/-- C9 amended: every string occurring at a *non-key* position in the result
of `sanitize_input` (both the mock version and the `SecurityHardening`
version, for any behaviour of `bleach.clean`) has length at most 10000 and
contains no null byte; dict keys are passed through unchanged and escape this
guarantee. -/
theorem c9_amended_value_strings_bounded_and_null_free
    (v : JsonVal) (bf : PyStr → PyStr) :
    (∀ s ∈ JsonVal.valueStrings (SecurityValidator.sanitize_input v),
      s.length ≤ 10000 ∧ nullCh ∉ s) ∧
    (∀ s ∈ JsonVal.valueStrings (SecurityHardening.sanitize_input bf v),
      s.length ≤ 10000 ∧ nullCh ∉ s) := by
  constructor
  · intro s hs
    rw [sv_sanitize_eq_spec v, valueStrings_specMap] at hs
    rcases List.mem_map.mp hs with ⟨t, _, rfl⟩
    exact sv_sanitizeStr_props t
  · intro s hs
    rw [sh_sanitize_eq_spec bf v, valueStrings_specMap] at hs
    rcases List.mem_map.mp hs with ⟨t, _, rfl⟩
    exact sh_sanitizeStr_props bf t

/-- C9 amended, witness: concrete sanitized strings satisfy the bound. -/
theorem c9_amended_witness :
    (toL "a").length ≤ 10000 ∧ nullCh ∉ toL "a" :=
  (c9_amended_value_strings_bounded_and_null_free (.str (toL "a")) id).1
    (toL "a") (by decide)

/-! ### Helper lemmas for claim C8 -/

mutual
theorem valueStrings_subset_allStrings (v : JsonVal) :
    ∀ s, s ∈ JsonVal.valueStrings v → s ∈ JsonVal.allStrings v := by
  cases v with
  | str s => intro t ht; exact ht
  | num n => intro t ht; exact ht
  | boolean b => intro t ht; exact ht
  | null => intro t ht; exact ht
  | dict e =>
    intro t ht
    exact valueStrings_subset_allStringsE e t ht
  | arr l =>
    intro t ht
    exact valueStrings_subset_allStringsL l t ht
theorem valueStrings_subset_allStringsL (l : JsonList) :
    ∀ s, s ∈ JsonList.valueStrings l → s ∈ JsonList.allStrings l := by
  cases l with
  | nil => intro t ht; exact ht
  | cons v tl =>
    intro t ht
    simp only [JsonList.valueStrings, List.mem_append] at ht
    simp only [JsonList.allStrings, List.mem_append]
    rcases ht with ht | ht
    · exact Or.inl (valueStrings_subset_allStrings v t ht)
    · exact Or.inr (valueStrings_subset_allStringsL tl t ht)
theorem valueStrings_subset_allStringsE (e : JsonEntries) :
    ∀ s, s ∈ JsonEntries.valueStrings e → s ∈ JsonEntries.allStrings e := by
  cases e with
  | nil => intro t ht; exact ht
  | cons k v tl =>
    intro t ht
    simp only [JsonEntries.valueStrings, List.mem_append] at ht
    simp only [JsonEntries.allStrings, List.mem_cons, List.mem_append]
    rcases ht with ht | ht
    · exact Or.inr (Or.inl (valueStrings_subset_allStrings v t ht))
    · exact Or.inr (Or.inr (valueStrings_subset_allStringsE tl t ht))
end

theorem pyTruthy_of_mem_valueStrings (v : JsonVal) (s : PyStr)
    (hs : s ∈ JsonVal.valueStrings v) (hne : s ≠ []) : pyTruthy v = true := by
  cases v with
  | str t =>
    simp only [JsonVal.valueStrings, List.mem_singleton] at hs
    subst hs
    simpa [pyTruthy, List.isEmpty_iff] using hne
  | num n => exact absurd hs (List.not_mem_nil s)
  | boolean b => exact absurd hs (List.not_mem_nil s)
  | null => exact absurd hs (List.not_mem_nil s)
  | dict e =>
    cases e with
    | nil => exact absurd hs (List.not_mem_nil s)
    | cons k v t => rfl
  | arr l =>
    cases l with
    | nil => exact absurd hs (List.not_mem_nil s)
    | cons v t => rfl

theorem amp_mem_escape_strip_take (s : PyStr) :
    ∀ n, s.length ≤ n → (∃ c ∈ s, c ∈ htmlSpecialChars) →
      '&' ∈ ((SecurityValidator.htmlEscape s).filter (fun c => c != nullCh)).take n := by
  induction s with
  | nil =>
    intro n _ hsp
    rcases hsp with ⟨c, hc, _⟩
    exact absurd hc (List.not_mem_nil c)
  | cons x xs ih =>
    intro n hlen hsp
    have hn : 1 ≤ n := le_trans (by simp) hlen
    obtain ⟨m, rfl⟩ : ∃ m, n = m + 1 := ⟨n - 1, by omega⟩
    by_cases hx : x ∈ htmlSpecialChars
    · have hesc : ∃ r, SecurityValidator.escapeChar x = '&' :: r := by
        fin_cases hx <;> exact ⟨_, rfl⟩
      rcases hesc with ⟨r, hr⟩
      rw [show SecurityValidator.htmlEscape (x :: xs)
          = SecurityValidator.escapeChar x ++ SecurityValidator.htmlEscape xs from rfl, hr]
      rw [List.cons_append, List.filter_cons,
        if_pos (by decide : (('&' : Char) != nullCh) = true)]
      rw [List.take_succ_cons]
      exact List.mem_cons_self '&' _
    · have hesc : SecurityValidator.escapeChar x = [x] := by
        simp only [htmlSpecialChars, List.mem_cons, List.not_mem_nil, or_false] at hx
        push_neg at hx
        obtain ⟨h1, h2, h3, h4, h5⟩ := hx
        simp [SecurityValidator.escapeChar, h1, h2, h3, h4, h5]
      rw [show SecurityValidator.htmlEscape (x :: xs)
          = SecurityValidator.escapeChar x ++ SecurityValidator.htmlEscape xs from rfl, hesc]
      have hsp2 : ∃ c ∈ xs, c ∈ htmlSpecialChars := by
        rcases hsp with ⟨c, hc, hcs⟩
        rcases List.mem_cons.mp hc with rfl | hc2
        · exact absurd hcs hx
        · exact ⟨c, hc2, hcs⟩
      have hlen2 : xs.length ≤ m := by
        simpa [List.length_cons] using hlen
      by_cases hxn : x = nullCh
      · subst hxn
        rw [List.cons_append, List.filter_cons,
          if_neg (by decide : ¬((nullCh != nullCh) = true))]
        simpa using ih (m + 1) (le_trans hlen2 (Nat.le_succ m)) hsp2
      · rw [List.cons_append, List.filter_cons,
          if_pos (by simpa using hxn)]
        rw [List.take_succ_cons]
        exact List.mem_cons_of_mem x (ih m hlen2 hsp2)

theorem sanitizeStr_dangerous (s : PyStr) (hlen : s.length ≤ 10000)
    (hsp : ∃ c ∈ s, c ∈ htmlSpecialChars) :
    SecurityValidator.stringDangerous (SecurityValidator.sanitizeStr s) = true := by
  have hamp : '&' ∈ SecurityValidator.sanitizeStr s := by
    unfold SecurityValidator.sanitizeStr
    set e2 := (SecurityValidator.htmlEscape s).filter (fun c => c != nullCh) with he2
    have h10 := amp_mem_escape_strip_take s 10000 hlen hsp
    by_cases h : e2.length > 10000
    · simpa [if_pos h] using h10
    · rw [if_neg h]
      exact List.take_subset 10000 e2 h10
  have hlow : '&' ∈ pyLower (SecurityValidator.sanitizeStr s) := by
    have h1 : pyToLower '&' = '&' := rfl
    have h2 := List.mem_map_of_mem pyToLower hamp
    rw [h1] at h2
    simpa [pyLower] using h2
  have hcmd : cmdClassPat (pyLower (SecurityValidator.sanitizeStr s)) = true := by
    simp only [cmdClassPat, List.any_eq_true]
    exact ⟨'&', hlow, by decide⟩
  simp only [SecurityValidator.stringDangerous, List.any_eq_true]
  refine ⟨cmdClassPat, ?_, hcmd⟩
  simp [SecurityValidator.DANGEROUS_PATTERNS]

/-! ### Claim C8 -/

/-- C8 counterexample: the middleware does *not* reject every JSON payload
containing a string with an escapable character: sanitization skips dict
keys, so the payload `{"<": 1}` — which contains the string `"<"` — passes
sanitize-then-validate and reaches the handler. -/
theorem c8_counterexample :
    MockServer.security_middleware (fun b => Resp.bare b)
        ⟨some (.dict (.cons (toL "<") (.num 1) .nil)), []⟩
      = .ok (.bare (some (.dict (.cons (toL "<") (.num 1) .nil)))) ∧
    (toL "<") ∈ JsonVal.allStrings (.dict (.cons (toL "<") (.num 1) .nil)) ∧
    '<' ∈ toL "<" ∧ '<' ∈ htmlSpecialChars ∧ (toL "<").length ≤ 10000 := by decide

/-- C8 amended: for every string of length at most 10000 containing one of
`&`, `<`, `>`, `"`, `'`, sanitizing and then validating rejects (the escape
entity contains `&`, which the command-injection character class matches);
consequently the mock middleware rejects with HTTP 400 every JSON payload
containing such a string at a *non-key* position.  Dict keys are not
sanitized, so a payload containing such a string only as a dict key is not
necessarily rejected: `{"<": 1}` reaches the handler, while e.g. `{"&": 1}`
still aborts because the raw key itself matches the character class. -/
theorem c8_amended_sanitization_forces_rejection :
    (∀ s : PyStr, s.length ≤ 10000 → (∃ c ∈ s, c ∈ htmlSpecialChars) →
      SecurityValidator.validate_input
        (SecurityValidator.sanitize_input (.str s)) = false) ∧
    (∀ (α : Type) (f : Option JsonVal → Resp α) (req : HttpRequest)
        (d : JsonVal) (s : PyStr),
      req.jsonBody = some d → s ∈ JsonVal.valueStrings d → s.length ≤ 10000 →
      (∃ c ∈ s, c ∈ htmlSpecialChars) →
      MockServer.security_middleware f req = .aborted 400 "Invalid input detected") := by
  have key : ∀ (d : JsonVal) (s : PyStr), s ∈ JsonVal.valueStrings d →
      s.length ≤ 10000 → (∃ c ∈ s, c ∈ htmlSpecialChars) →
      SecurityValidator.validate_input (SecurityValidator.sanitize_input d) = false := by
    intro d s hsmem hlen hsp
    rw [Bool.eq_false_iff, Ne, sv_validate_iff]
    intro hall
    have hmem : SecurityValidator.sanitizeStr s
        ∈ JsonVal.valueStrings (SecurityValidator.sanitize_input d) := by
      rw [sv_sanitize_eq_spec, valueStrings_specMap]
      exact List.mem_map_of_mem _ hsmem
    have hok := hall _ (valueStrings_subset_allStrings _ _ hmem)
    rw [sanitizeStr_dangerous s hlen hsp] at hok
    exact absurd hok (by simp)
  constructor
  · intro s hlen hsp
    exact key (.str s) s (by simp [JsonVal.valueStrings]) hlen hsp
  · intro α f req d s hreq hsmem hlen hsp
    have hne : s ≠ [] := by
      rcases hsp with ⟨c, hc, _⟩
      intro h
      subst h
      exact absurd hc (List.not_mem_nil c)
    have htruthy := pyTruthy_of_mem_valueStrings d s hsmem hne
    have hval := key d s hsmem hlen hsp
    obtain ⟨jb, q⟩ := req
    simp only at hreq
    subst hreq
    simp [MockServer.security_middleware, htruthy, hval]

/-- C8 amended, witness: the payload `"<"` is rejected with 400. -/
theorem c8_amended_witness :
    SecurityValidator.validate_input
        (SecurityValidator.sanitize_input (.str (toL "<"))) = false ∧
    MockServer.security_middleware (fun b => Resp.bare b) ⟨some (.str (toL "<")), []⟩
      = .aborted 400 "Invalid input detected" :=
  ⟨c8_amended_sanitization_forces_rejection.1 (toL "<") (by decide) (by decide),
   c8_amended_sanitization_forces_rejection.2 (Option JsonVal) (fun b => Resp.bare b)
     ⟨some (.str (toL "<")), []⟩ (.str (toL "<")) (toL "<") rfl (by decide)
     (by decide) (by decide)⟩

/-! ### Header-map lemmas (for claim C5) -/

theorem getHeader_setHeader (hs : List (PyStr × PyStr)) (n m v : PyStr) :
    getHeader n (setHeader hs m v) = if m = n then some v else getHeader n hs := by
  induction hs with
  | nil =>
    by_cases h : m = n
    · simp [setHeader, getHeader, h]
    · simp [setHeader, getHeader, h]
  | cons p rest ih =>
    obtain ⟨a, b⟩ := p
    by_cases ha : a = m
    · subst ha
      by_cases h : a = n
      · simp [setHeader, getHeader, h]
      · simp [setHeader, getHeader, h]
    · by_cases h : a = n
      · subst h
        have hma : ¬ m = a := fun hmn => ha hmn.symm
        simp [setHeader, getHeader, ha, hma]
      · simp [setHeader, getHeader, ha, h, ih]

theorem getHeader_applyHeaders_not_mem (upd : List (PyStr × PyStr)) :
    ∀ (hs : List (PyStr × PyStr)) (n : PyStr), n ∉ upd.map Prod.fst →
      getHeader n (applyHeaders upd hs) = getHeader n hs := by
  induction upd with
  | nil => intro hs n _; rfl
  | cons p rest ih =>
    intro hs n hn
    obtain ⟨m, v⟩ := p
    simp only [List.map_cons, List.mem_cons, not_or] at hn
    rw [show applyHeaders ((m, v) :: rest) hs = applyHeaders rest (setHeader hs m v) from rfl]
    rw [ih (setHeader hs m v) n hn.2, getHeader_setHeader,
      if_neg (fun h => hn.1 h.symm)]

theorem getHeader_applyHeaders_mem (upd : List (PyStr × PyStr)) :
    ∀ (hs : List (PyStr × PyStr)) (n v : PyStr), (upd.map Prod.fst).Nodup →
      (n, v) ∈ upd → getHeader n (applyHeaders upd hs) = some v := by
  induction upd with
  | nil => intro hs n v _ hmem; cases hmem
  | cons p rest ih =>
    intro hs n v hnd hmem
    obtain ⟨m, w⟩ := p
    simp only [List.map_cons, List.nodup_cons] at hnd
    rw [show applyHeaders ((m, w) :: rest) hs = applyHeaders rest (setHeader hs m w) from rfl]
    rcases List.mem_cons.mp hmem with heq | hmem2
    · obtain ⟨rfl, rfl⟩ := Prod.mk.injEq .. |>.mp heq
      rw [getHeader_applyHeaders_not_mem rest _ n hnd.1, getHeader_setHeader, if_pos rfl]
    · exact ih (setHeader hs m w) n v hnd.2 hmem2

/-! ### Claim C5 -/

/-- C5: a response with a `headers` attribute returned through either
`security_middleware` carries that middleware's fixed header set with its
fixed values (`X-Content-Type-Options: nosniff`, `X-Frame-Options: DENY`, a
`Content-Security-Policy`, ...); headers outside the fixed set and the
response body are untouched; a response without a `headers` attribute is
returned unchanged; and every non-aborted middleware result is exactly the
handler's response decorated this way. -/
theorem c5_security_headers_decorate_responses (α : Type) (hs : List (PyStr × PyStr)) (b : α) :
    (∀ p ∈ MockServer.securityHeaders,
      getHeader p.1 (applyHeaders MockServer.securityHeaders hs) = some p.2) ∧
    (∀ n, n ∉ MockServer.securityHeaders.map Prod.fst →
      getHeader n (applyHeaders MockServer.securityHeaders hs) = getHeader n hs) ∧
    (addHeaders MockServer.securityHeaders (Resp.withHeaders hs b)
      = Resp.withHeaders (applyHeaders MockServer.securityHeaders hs) b) ∧
    (addHeaders MockServer.securityHeaders (Resp.bare b) = Resp.bare b) ∧
    (∀ p ∈ SecurityHardening.secure_headers,
      getHeader p.1 (applyHeaders SecurityHardening.secure_headers hs) = some p.2) ∧
    (∀ n, n ∉ SecurityHardening.secure_headers.map Prod.fst →
      getHeader n (applyHeaders SecurityHardening.secure_headers hs) = getHeader n hs) ∧
    (addHeaders SecurityHardening.secure_headers (Resp.withHeaders hs b)
      = Resp.withHeaders (applyHeaders SecurityHardening.secure_headers hs) b) ∧
    (addHeaders SecurityHardening.secure_headers (Resp.bare b) = Resp.bare b) ∧
    (∀ (f : Option JsonVal → Resp α) (req : HttpRequest) (r : Resp α),
      MockServer.security_middleware f req = .ok r →
        r = addHeaders MockServer.securityHeaders (f (MockServer.passedBody req))) ∧
    (∀ (f : Option JsonVal → Resp α) (req : HttpRequest) (r : Resp α),
      Hardening.security_middleware f req = .ok r →
        r = addHeaders SecurityHardening.secure_headers (f req.jsonBody)) := by
  refine ⟨?_, ?_, rfl, rfl, ?_, ?_, rfl, rfl, ?_, ?_⟩
  · intro p hp
    exact getHeader_applyHeaders_mem MockServer.securityHeaders hs p.1 p.2 (by decide) hp
  · intro n hn
    exact getHeader_applyHeaders_not_mem MockServer.securityHeaders hs n hn
  · intro p hp
    exact getHeader_applyHeaders_mem SecurityHardening.secure_headers hs p.1 p.2 (by decide) hp
  · intro n hn
    exact getHeader_applyHeaders_not_mem SecurityHardening.secure_headers hs n hn
  · intro f req r hok
    obtain ⟨jb, q⟩ := req
    cases jb with
    | none =>
      by_cases hq : MockServer.queryOk q
      · simp only [MockServer.security_middleware, if_pos hq, MWResult.ok.injEq] at hok
        rw [← hok]
        rfl
      · simp [MockServer.security_middleware, hq] at hok
    | some d =>
      by_cases ht : pyTruthy d
      · by_cases hv : SecurityValidator.validate_input (SecurityValidator.sanitize_input d)
        · by_cases hq : MockServer.queryOk q
          · simp only [MockServer.security_middleware, ht, if_true, hv, hq,
              MWResult.ok.injEq] at hok
            rw [← hok]
            simp [MockServer.passedBody, ht]
          · simp [MockServer.security_middleware, ht, hv, hq] at hok
        · simp [MockServer.security_middleware, ht, hv] at hok
      · by_cases hq : MockServer.queryOk q
        · simp [MockServer.security_middleware, ht, hq, MWResult.ok.injEq] at hok
          rw [← hok]
          simp [MockServer.passedBody, ht]
        · simp [MockServer.security_middleware, ht, hq] at hok
  · intro f req r hok
    obtain ⟨jb, q⟩ := req
    cases jb with
    | none =>
      by_cases hq : Hardening.queryOk q
      · simp only [Hardening.security_middleware, if_pos hq, MWResult.ok.injEq] at hok
        rw [← hok]
      · simp [Hardening.security_middleware, hq] at hok
    | some d =>
      by_cases hbad : pyTruthy d && !(SecurityHardening.validate_input d)
      · simp [Hardening.security_middleware, hbad] at hok
      · by_cases hq : Hardening.queryOk q
        · simp [Hardening.security_middleware, hbad, hq, MWResult.ok.injEq] at hok
          rw [← hok]
        · simp [Hardening.security_middleware, hbad, hq] at hok

/-- C5 witness: a concrete decorated response. -/
theorem c5_witness :
    getHeader (toL "X-Frame-Options")
        (applyHeaders MockServer.securityHeaders [(toL "Server", toL "mock")])
      = some (toL "DENY") ∧
    getHeader (toL "Server")
        (applyHeaders MockServer.securityHeaders [(toL "Server", toL "mock")])
      = some (toL "mock") :=
  ⟨(c5_security_headers_decorate_responses Nat [(toL "Server", toL "mock")] 0).1
     (toL "X-Frame-Options", toL "DENY") (by decide),
   (c5_security_headers_decorate_responses Nat [(toL "Server", toL "mock")] 0).2.1
     (toL "Server") (by decide)⟩

/-! ### Middleware pass/abort helper lemmas (claims C1 and C6) -/

theorem mockMW_pass {α : Type} (f : Option JsonVal → Resp α) (req : HttpRequest)
    (hb : MockServer.bodyBad req = false) (hq : MockServer.queryOk req.queryParams = true) :
    MockServer.security_middleware f req
      = .ok (addHeaders MockServer.securityHeaders (f (MockServer.passedBody req))) := by
  obtain ⟨jb, q⟩ := req
  cases jb with
  | none => simp [MockServer.security_middleware, MockServer.passedBody, hq]
  | some d =>
    simp only [MockServer.bodyBad] at hb
    by_cases ht : pyTruthy d
    · simp only [ht, Bool.true_and] at hb
      have hv : SecurityValidator.validate_input (SecurityValidator.sanitize_input d) = true := by
        simpa using hb
      simp [MockServer.security_middleware, MockServer.passedBody, ht, hv, hq]
    · simp [MockServer.security_middleware, MockServer.passedBody, ht, hq]

theorem mockMW_abort {α : Type} (f g : Option JsonVal → Resp α) (req : HttpRequest)
    (h : (MockServer.bodyBad req || !MockServer.queryOk req.queryParams) = true) :
    (∃ msg, MockServer.security_middleware f req = .aborted 400 msg) ∧
    MockServer.security_middleware f req = MockServer.security_middleware g req := by
  obtain ⟨jb, q⟩ := req
  simp only [Bool.or_eq_true, Bool.not_eq_true'] at h
  cases jb with
  | none =>
    rcases h with h | h
    · simp [MockServer.bodyBad] at h
    · exact ⟨⟨"Invalid query parameter", by simp [MockServer.security_middleware, h]⟩,
        by simp [MockServer.security_middleware, h]⟩
  | some d =>
    rcases h with h | h
    · simp only [MockServer.bodyBad, Bool.and_eq_true, Bool.not_eq_true'] at h
      exact ⟨⟨"Invalid input detected", by simp [MockServer.security_middleware, h.1, h.2]⟩,
        by simp [MockServer.security_middleware, h.1, h.2]⟩
    · by_cases ht : pyTruthy d
      · by_cases hv : SecurityValidator.validate_input (SecurityValidator.sanitize_input d)
        · exact ⟨⟨"Invalid query parameter", by simp [MockServer.security_middleware, ht, hv, h]⟩,
            by simp [MockServer.security_middleware, ht, hv, h]⟩
        · exact ⟨⟨"Invalid input detected", by simp [MockServer.security_middleware, ht, hv]⟩,
            by simp [MockServer.security_middleware, ht, hv]⟩
      · exact ⟨⟨"Invalid query parameter", by simp [MockServer.security_middleware, ht, h]⟩,
          by simp [MockServer.security_middleware, ht, h]⟩

theorem hardMW_pass {α : Type} (f : Option JsonVal → Resp α) (req : HttpRequest)
    (hb : Hardening.bodyBad req = false) (hq : Hardening.queryOk req.queryParams = true) :
    Hardening.security_middleware f req
      = .ok (addHeaders SecurityHardening.secure_headers (f req.jsonBody)) := by
  obtain ⟨jb, q⟩ := req
  cases jb with
  | none => simp [Hardening.security_middleware, hq]
  | some d =>
    simp only [Hardening.bodyBad] at hb
    simp [Hardening.security_middleware, hb, hq]

theorem hardMW_abort {α : Type} (f g : Option JsonVal → Resp α) (req : HttpRequest)
    (h : (Hardening.bodyBad req || !Hardening.queryOk req.queryParams) = true) :
    (∃ msg, Hardening.security_middleware f req = .aborted 400 msg) ∧
    Hardening.security_middleware f req = Hardening.security_middleware g req := by
  obtain ⟨jb, q⟩ := req
  simp only [Bool.or_eq_true, Bool.not_eq_true'] at h
  cases jb with
  | none =>
    rcases h with h | h
    · simp [Hardening.bodyBad] at h
    · exact ⟨⟨"Invalid query parameter", by simp [Hardening.security_middleware, h]⟩,
        by simp [Hardening.security_middleware, h]⟩
  | some d =>
    rcases h with h | h
    · simp only [Hardening.bodyBad] at h
      exact ⟨⟨"Invalid input detected", by simp [Hardening.security_middleware, h]⟩,
        by simp [Hardening.security_middleware, h]⟩
    · by_cases hbad : (pyTruthy d && !(SecurityHardening.validate_input d)) = true
      · exact ⟨⟨"Invalid input detected", by simp [Hardening.security_middleware, hbad]⟩,
          by simp [Hardening.security_middleware, hbad]⟩
      · exact ⟨⟨"Invalid query parameter", by simp [Hardening.security_middleware, hbad, h]⟩,
          by simp [Hardening.security_middleware, hbad, h]⟩

/-! ### Claim C1 -/

/-- C1 counterexample: a JSON payload that *passes* input validation is
nevertheless rejected by the mock server's middleware, because that
middleware validates the sanitized payload, not the payload itself: the
string `"<"` validates to `True`, yet the request aborts with 400. -/
theorem c1_counterexample :
    SecurityValidator.validate_input (.str (toL "<")) = true ∧
    MockServer.queryOk [] = true ∧
    MockServer.security_middleware (fun b => Resp.bare b) ⟨some (.str (toL "<")), []⟩
      = .aborted 400 "Invalid input detected" := by decide

/-- C1 amended: both middlewares abort with HTTP 400 — with a result that
does not depend on the wrapped handler — exactly when the body check fails
(for the mock server: the *sanitized* truthy JSON payload fails validation;
for security-hardening.py: the raw truthy payload fails validation) or some
query key/value fails validation; otherwise the handler runs (on the
sanitized payload in the mock server) and its response, decorated with the
security headers, is returned. -/
theorem c1_amended_middleware_abort_iff (α : Type) (f g : Option JsonVal → Resp α)
    (req : HttpRequest) :
    ((MockServer.bodyBad req || !MockServer.queryOk req.queryParams) = true →
      (∃ msg, MockServer.security_middleware f req = .aborted 400 msg) ∧
      MockServer.security_middleware f req = MockServer.security_middleware g req) ∧
    (MockServer.bodyBad req = false → MockServer.queryOk req.queryParams = true →
      MockServer.security_middleware f req
        = .ok (addHeaders MockServer.securityHeaders (f (MockServer.passedBody req)))) ∧
    ((Hardening.bodyBad req || !Hardening.queryOk req.queryParams) = true →
      (∃ msg, Hardening.security_middleware f req = .aborted 400 msg) ∧
      Hardening.security_middleware f req = Hardening.security_middleware g req) ∧
    (Hardening.bodyBad req = false → Hardening.queryOk req.queryParams = true →
      Hardening.security_middleware f req
        = .ok (addHeaders SecurityHardening.secure_headers (f req.jsonBody))) :=
  ⟨mockMW_abort f g req, mockMW_pass f req, hardMW_abort f g req, hardMW_pass f req⟩

/-- C1 amended, witness: a clean request passes through to the handler, a
malicious query aborts. -/
theorem c1_amended_witness :
    MockServer.security_middleware (fun b => Resp.bare b) ⟨some (.str (toL "hi")), []⟩
      = .ok (addHeaders MockServer.securityHeaders
          (Resp.bare (MockServer.passedBody ⟨some (.str (toL "hi")), []⟩))) ∧
    (∃ msg, Hardening.security_middleware (fun b => Resp.bare b)
        ⟨none, [(toL "q", [';'])]⟩ = .aborted 400 msg) :=
  ⟨(c1_amended_middleware_abort_iff (Option JsonVal) (fun b => Resp.bare b)
      (fun b => Resp.bare b) ⟨some (.str (toL "hi")), []⟩).2.1 (by decide) (by decide),
   ((c1_amended_middleware_abort_iff (Option JsonVal) (fun b => Resp.bare b)
      (fun _ => Resp.bare none) ⟨none, [(toL "q", [';'])]⟩).2.2.1 (by decide)).1⟩

/-! ### Claim C6 -/

/-- C6 counterexample: the `security_middleware` of security-hardening.py
does *not* sanitize or replace the payload: the handler observes the raw
string `"<"`, although its sanitized form differs (shown here with
`bleach.clean` instantiated as the identity, which is its behaviour on
`&lt;`). -/
theorem c6_counterexample :
    Hardening.security_middleware (fun b => Resp.bare b) ⟨some (.str (toL "<")), []⟩
      = .ok (.bare (some (.str (toL "<")))) ∧
    SecurityHardening.sanitize_input id (.str (toL "<")) ≠ .str (toL "<") := by decide

/-- C6 amended: the mock server's middleware both sanitizes and validates
the JSON payload and replaces it, so its handler observes the sanitized
payload; the security-hardening.py middleware only validates and hands the
handler the original payload unchanged. -/
theorem c6_amended_mock_replaces_hardening_does_not (α : Type)
    (f : Option JsonVal → Resp α) (req : HttpRequest) (d : JsonVal) :
    (req.jsonBody = some d → pyTruthy d = true →
      SecurityValidator.validate_input (SecurityValidator.sanitize_input d) = true →
      MockServer.queryOk req.queryParams = true →
      MockServer.security_middleware f req
        = .ok (addHeaders MockServer.securityHeaders
            (f (some (SecurityValidator.sanitize_input d))))) ∧
    (∀ r : Resp α, Hardening.security_middleware f req = .ok r →
      r = addHeaders SecurityHardening.secure_headers (f req.jsonBody)) := by
  constructor
  · intro hreq ht hv hq
    have hb : MockServer.bodyBad req = false := by
      simp [MockServer.bodyBad, hreq, hv]
    have h := mockMW_pass f req hb hq
    rw [h]
    simp [MockServer.passedBody, hreq, ht]
  · intro r hok
    obtain ⟨jb, q⟩ := req
    cases jb with
    | none =>
      by_cases hq : Hardening.queryOk q
      · simp [Hardening.security_middleware, hq, MWResult.ok.injEq] at hok
        rw [← hok]
      · simp [Hardening.security_middleware, hq] at hok
    | some d2 =>
      by_cases hbad : (pyTruthy d2 && !(SecurityHardening.validate_input d2)) = true
      · simp [Hardening.security_middleware, hbad] at hok
      · by_cases hq : Hardening.queryOk q
        · simp [Hardening.security_middleware, hbad, hq, MWResult.ok.injEq] at hok
          rw [← hok]
        · simp [Hardening.security_middleware, hbad, hq] at hok

/-- C6 amended, witness: the mock handler observes the sanitized payload. -/
theorem c6_amended_witness :
    MockServer.security_middleware (fun b => Resp.bare b) ⟨some (.str (toL "hi")), []⟩
      = .ok (addHeaders MockServer.securityHeaders
          (Resp.bare (some (SecurityValidator.sanitize_input (.str (toL "hi")))))) :=
  (c6_amended_mock_replaces_hardening_does_not (Option JsonVal) (fun b => Resp.bare b)
    ⟨some (.str (toL "hi")), []⟩ (.str (toL "hi"))).1 rfl (by decide) (by decide) (by decide)

/-- C2 witness: a concrete rejection produced through the iff. -/
theorem c2_witness :
    SecurityValidator.validate_input (.str (toL "a&b")) = false :=
  (c2_validate_input_iff_dangerous_string (.str (toL "a&b"))).2.mpr
    ⟨toL "a&b", by decide, by decide⟩

/-- C4 amended, witness: a concrete instance of the string-map equation. -/
theorem c4_amended_witness :
    SecurityValidator.sanitize_input (.str (toL "a"))
      = specMapStrings SecurityValidator.sanitizeStr (.str (toL "a")) :=
  (c4_amended_sanitize_is_string_map (.str (toL "a")) id).1
